import Mathlib

/-!
Verification of the weather-data ETL core of this repository.

The repository's core (spec §1-§4) is the JSON flatten/normalize logic and the
chunked bulk-insert writers of `load_to_snowflake.py`, `load_to_snowflake_pandas.py`
and `load_to_mysql_pandas.py`.  This file gives a shallow embedding of:

  * the JSON value model (documents parsed by `json.load`),
  * the per-document value extraction of `generate_snowflake_insert_normalized`
    and `generate_snowflake_insert_variant` (load_to_snowflake.py), including the
    relevant pieces of Python runtime semantics (`dict.get`, subscripting,
    truthiness, `str.replace`),
  * the per-document column computations of
    `WeatherDataLoader.normalize_dataframe_for_normalized_table` and
    `normalize_dataframe_for_raw_table` (load_to_snowflake_pandas.py), for a
    single-document batch, including `pd.json_normalize` flattening and
    `pd.to_numeric(..., errors='coerce')` coercion,
  * a serializer and parser pair modelling Python's `json.dumps` (default
    separators, ensure_ascii) and `json.loads`,
  * the chunked writers' slicing loop (`range(0, total, BATCH_SIZE)` +
    `iloc[i:i+BATCH_SIZE]`), commit/rollback control flow, and append-only
    table semantics,
  * the SQL string-literal escaping used when embedding values into generated
    statements: naive quote doubling (`.replace("'", "''")`) and the
    `$JSON$`/`$WEATHER_JSON$` dollar-quoted delimiter selection of
    `load_dataframe_to_raw_table`, together with a model of how the target
    dialect reads the resulting literals back,
  * the source enumeration loop of `read_json_files`.

Machine integers do not occur (Python integers are unbounded); Python floats are
modelled as exact decimal rationals (`ℚ`), which covers every number the
pipeline's JSON documents can carry at the decimal level; shortest-repr binary
floating point printing is not modelled.
-/

set_option maxHeartbeats 1000000

/-! ## JSON value model

A parsed JSON document as produced by `json.load` / `json.loads`: `null`,
booleans, numbers, strings, arrays and objects.  Objects are association lists
in insertion order (Python dicts preserve insertion order and `json.dumps`
serializes in that order).  The type is a mutual inductive so that all
functions over it are structural and kernel-reducible. -/

mutual

inductive Json where
  | null : Json
  | bool (b : Bool) : Json
  | num (q : ℚ) : Json
  | str (s : String) : Json
  | arr (elems : JsonList) : Json
  | obj (fields : JsonObj) : Json
deriving DecidableEq

inductive JsonList where
  | nil : JsonList
  | cons (hd : Json) (tl : JsonList) : JsonList
deriving DecidableEq

inductive JsonObj where
  | nil : JsonObj
  | cons (k : String) (v : Json) (tl : JsonObj) : JsonObj
deriving DecidableEq

end

namespace JsonObj

/-- First-match association lookup, i.e. Python `d[k]` / `k in d` on a dict
(keys of a parsed JSON object are unique, so first-match is exact). -/
def lookup : JsonObj → String → Option Json
  | .nil, _ => none
  | .cons k v t, k' => if k = k' then some v else t.lookup k'

/-- Python `d.get(k, dflt)` on a value known to be a dict. -/
def getD (o : JsonObj) (k : String) (dflt : Json) : Json :=
  (o.lookup k).getD dflt

end JsonObj

namespace Json

/-- Python truthiness of a JSON-shaped value: `None`, `False`, `0`, `""`,
`[]` and `` {} `` are falsy, everything else truthy. -/
def truthy : Json → Bool
  | .null => false
  | .bool b => b
  | .num q => q ≠ 0
  | .str s => s ≠ ""
  | .arr .nil => false
  | .arr (.cons _ _) => true
  | .obj .nil => false
  | .obj (.cons _ _ _) => true

/-- Python `x.get(k, dflt)`: succeeds only when `x` is a dict, otherwise the
interpreter raises `AttributeError` (e.g. `5.get(...)`, `"s".get(...)`). -/
def pyGet : Json → String → Json → Except String Json
  | .obj o, k, dflt => .ok (o.getD k dflt)
  | _, _, _ => .error "AttributeError: object has no attribute get"

/-- Python `x[0]`: first element of a list, first character of a string,
`KeyError` for a dict without key `0`, `TypeError` otherwise.  This is the
`weather_array[0]` access of load_to_snowflake.py line 188. -/
def sub0 : Json → Except String Json
  | .arr (.cons h _) => .ok h
  | .arr .nil => .error "IndexError: list index out of range"
  | .str s =>
    match s.toList with
    | [] => .error "IndexError: string index out of range"
    | c :: _ => .ok (.str (String.mk [c]))
  | .obj _ => .error "KeyError: 0"
  | _ => .error "TypeError: object is not subscriptable"

/-- Python `x.replace(...)` receiver check: only strings have `.replace`. -/
def asStr : Json → Except String String
  | .str s => .ok s
  | _ => .error "AttributeError: object has no attribute replace"

end Json

/-- `s.replace("'", "''")` on a character list. -/
def replQuoteChars : List Char → List Char
  | [] => []
  | c :: t => if c = '\'' then '\'' :: '\'' :: replQuoteChars t
              else c :: replQuoteChars t

/-- `s.replace("'", "''")`, the quote escaping used throughout the repository
when embedding strings into generated SQL text. -/
def replQuote (s : String) : String :=
  String.mk (replQuoteChars s.toList)

/-! ## Flatten engine, SQL-text generator variant (load_to_snowflake.py)

`generate_snowflake_insert_normalized` (lines 153-279) builds, for each parsed
document, one INSERT statement whose VALUES tuple embeds 29 Python values
obtained with `dict.get` defaulting.  `NormalizedVals` records those 29 values
(each the Python value the f-string formats), in the source's column order. -/

structure NormalizedVals where
  CITY_NAME : Json
  CITY_ID : Json
  COUNTRY_CODE : Json
  LONGITUDE : Json
  LATITUDE : Json
  WEATHER_ID : Json
  WEATHER_MAIN : Json
  WEATHER_DESCRIPTION : Json
  WEATHER_ICON : Json
  BASE : Json
  TEMPERATURE : Json
  FEELS_LIKE : Json
  TEMP_MIN : Json
  TEMP_MAX : Json
  PRESSURE : Json
  HUMIDITY : Json
  SEA_LEVEL : Json
  GROUND_LEVEL : Json
  VISIBILITY : Json
  WIND_SPEED : Json
  WIND_DEGREE : Json
  CLOUD_COVERAGE : Json
  DATA_TIMESTAMP : Json
  SUNRISE_TIMESTAMP : Json
  SUNSET_TIMESTAMP : Json
  TIMEZONE_OFFSET : Json
  SYS_TYPE : Json
  SYS_ID : Json
  RESPONSE_CODE : Json
deriving DecidableEq

/-- The all-defaults row: every `.get` default of the source's VALUES tuple
(`""` for text placeholders, `0` for numeric ones), lines 234-273 of
load_to_snowflake.py. -/
def defaultNormalizedVals : NormalizedVals where
  CITY_NAME := .str ""
  CITY_ID := .num 0
  COUNTRY_CODE := .str ""
  LONGITUDE := .num 0
  LATITUDE := .num 0
  WEATHER_ID := .num 0
  WEATHER_MAIN := .str ""
  WEATHER_DESCRIPTION := .str ""
  WEATHER_ICON := .str ""
  BASE := .str ""
  TEMPERATURE := .num 0
  FEELS_LIKE := .num 0
  TEMP_MIN := .num 0
  TEMP_MAX := .num 0
  PRESSURE := .num 0
  HUMIDITY := .num 0
  SEA_LEVEL := .num 0
  GROUND_LEVEL := .num 0
  VISIBILITY := .num 0
  WIND_SPEED := .num 0
  WIND_DEGREE := .num 0
  CLOUD_COVERAGE := .num 0
  DATA_TIMESTAMP := .num 0
  SUNRISE_TIMESTAMP := .num 0
  SUNSET_TIMESTAMP := .num 0
  TIMEZONE_OFFSET := .num 0
  SYS_TYPE := .num 0
  SYS_ID := .num 0
  RESPONSE_CODE := .num 0

/-- A section of the document (e.g. `coord`, `main`, `sys`) is absent or an
object — the shape §3 of the spec guarantees for present fields. -/
def sectionObj (d : JsonObj) (k : String) : Bool :=
  match d.lookup k with
  | none => true
  | some (.obj _) => true
  | some _ => false

/-- `data.get(sec, {}).get(key, dflt)` for a section that is absent or an
object. -/
def sectionGetD (d : JsonObj) (sec key : String) (dflt : Json) : Json :=
  match d.lookup sec with
  | some (.obj o) => o.getD key dflt
  | _ => dflt

/-- Per-document value extraction of `generate_snowflake_insert_normalized`
(load_to_snowflake.py lines 177-274), with Python's failure behaviour:

  * `coord = data.get('coord', {})` and likewise `main`, `wind`, `clouds`,
    `sys` (lines 184-200); these raise `AttributeError` when `data` is not a
    dict,
  * `weather_array = data.get('weather', [{}])`,
    `weather = weather_array[0] if weather_array else {}` (lines 187-188),
  * each VALUES placeholder uses `.get` with default `0` or `""`
    (lines 234-273); `WEATHER_DESCRIPTION` additionally calls
    `.replace("'", "''")` on the extracted value (line 243), which raises
    unless that value is a string. -/
def normalizedRowValues (data : Json) : Except String NormalizedVals := do
  let coord ← data.pyGet "coord" (.obj .nil)
  let weather_array ← data.pyGet "weather" (.arr (.cons (.obj .nil) .nil))
  let weather ← if weather_array.truthy then weather_array.sub0 else pure (.obj .nil)
  let main_data ← data.pyGet "main" (.obj .nil)
  let wind ← data.pyGet "wind" (.obj .nil)
  let clouds ← data.pyGet "clouds" (.obj .nil)
  let sys_data ← data.pyGet "sys" (.obj .nil)
  let cityName ← data.pyGet "name" (.str "")
  let cityId ← data.pyGet "id" (.num 0)
  let countryCode ← sys_data.pyGet "country" (.str "")
  let lon ← coord.pyGet "lon" (.num 0)
  let lat ← coord.pyGet "lat" (.num 0)
  let wId ← weather.pyGet "id" (.num 0)
  let wMain ← weather.pyGet "main" (.str "")
  let wDescRaw ← weather.pyGet "description" (.str "")
  let wDescStr ← wDescRaw.asStr
  let wIcon ← weather.pyGet "icon" (.str "")
  let base ← data.pyGet "base" (.str "")
  let temp ← main_data.pyGet "temp" (.num 0)
  let feels ← main_data.pyGet "feels_like" (.num 0)
  let tmin ← main_data.pyGet "temp_min" (.num 0)
  let tmax ← main_data.pyGet "temp_max" (.num 0)
  let pressure ← main_data.pyGet "pressure" (.num 0)
  let humidity ← main_data.pyGet "humidity" (.num 0)
  let seaLevel ← main_data.pyGet "sea_level" (.num 0)
  let grndLevel ← main_data.pyGet "grnd_level" (.num 0)
  let visibility ← data.pyGet "visibility" (.num 0)
  let windSpeed ← wind.pyGet "speed" (.num 0)
  let windDeg ← wind.pyGet "deg" (.num 0)
  let cloudsAll ← clouds.pyGet "all" (.num 0)
  let dt ← data.pyGet "dt" (.num 0)
  let sunrise ← sys_data.pyGet "sunrise" (.num 0)
  let sunset ← sys_data.pyGet "sunset" (.num 0)
  let timezone ← data.pyGet "timezone" (.num 0)
  let sysType ← sys_data.pyGet "type" (.num 0)
  let sysId ← sys_data.pyGet "id" (.num 0)
  let cod ← data.pyGet "cod" (.num 0)
  pure {
    CITY_NAME := cityName
    CITY_ID := cityId
    COUNTRY_CODE := countryCode
    LONGITUDE := lon
    LATITUDE := lat
    WEATHER_ID := wId
    WEATHER_MAIN := wMain
    WEATHER_DESCRIPTION := .str (replQuote wDescStr)
    WEATHER_ICON := wIcon
    BASE := base
    TEMPERATURE := temp
    FEELS_LIKE := feels
    TEMP_MIN := tmin
    TEMP_MAX := tmax
    PRESSURE := pressure
    HUMIDITY := humidity
    SEA_LEVEL := seaLevel
    GROUND_LEVEL := grndLevel
    VISIBILITY := visibility
    WIND_SPEED := windSpeed
    WIND_DEGREE := windDeg
    CLOUD_COVERAGE := cloudsAll
    DATA_TIMESTAMP := dt
    SUNRISE_TIMESTAMP := sunrise
    SUNSET_TIMESTAMP := sunset
    TIMEZONE_OFFSET := timezone
    SYS_TYPE := sysType
    SYS_ID := sysId
    RESPONSE_CODE := cod
  }

/-! ## Serialization: a model of Python `json.dumps`

`json.dumps(data)` with default arguments: separators `', '` and `': '`,
`ensure_ascii=True` (characters below 0x20 and at or above 0x7f are written as
`\uXXXX` escapes, astral characters as surrogate pairs), insertion-order keys.
Numbers are printed as exact decimals (sign, integer digits, then a fractional
part when the value is not an integer); binary floating point shortest-repr
printing is not modelled. -/

/-- Little-endian base-10 digits of `n` (empty for 0); the first argument is
structural fuel, `n` itself suffices. -/
def natDigitsAux : Nat → Nat → List Nat
  | 0, _ => []
  | f + 1, n => if n = 0 then [] else n % 10 :: natDigitsAux f (n / 10)

def natDigits (n : Nat) : List Nat := natDigitsAux n n

def digitChar (d : Nat) : Char := Char.ofNat (48 + d)

/-- Decimal digit characters of `n`, most significant first (`"0"` for 0). -/
def natChars (n : Nat) : List Char :=
  if n = 0 then ['0'] else ((natDigits n).reverse).map digitChar

/-- Exactly `k` decimal digits (little-endian helper). -/
def fracDigitsLE : Nat → Nat → List Nat
  | 0, _ => []
  | k + 1, m => m % 10 :: fracDigitsLE k (m / 10)

/-- `m` printed as exactly `k` decimal digits, zero padded on the left:
the fractional digits of a decimal. -/
def fracChars (k m : Nat) : List Char := ((fracDigitsLE k m).reverse).map digitChar

/-- Smallest `k ≤ fuel`-ish with `den ∣ 10 ^ k`, searched from `start`. -/
def decExpFrom (den : Nat) : Nat → Nat → Option Nat
  | 0, _ => none
  | f + 1, k => if den ∣ 10 ^ k then some k else decExpFrom den f (k + 1)

/-- The decimal exponent of a denominator: least `k` with `den ∣ 10 ^ k`, if
one exists (it does exactly when `den` has only the prime factors 2 and 5). -/
def decExp (den : Nat) : Option Nat := decExpFrom den (den + 1) 0

/-- A rational with an exact finite decimal representation.  Every number a
JSON document can carry (`json.load` output) is of this form. -/
def Rat.isDecimal (q : ℚ) : Prop := (decExp q.den).isSome

instance (q : ℚ) : Decidable q.isDecimal := by unfold Rat.isDecimal; infer_instance

/-- Decimal printing of a rational: sign, integer digits, and (when the
decimal exponent is positive) a `.` followed by exactly `k` fractional
digits.  For non-decimal rationals (never produced by parsing) a `num/den`
fallback is emitted. -/
def serNum (q : ℚ) : List Char :=
  let sign : List Char := if q.num < 0 then ['-'] else []
  match decExp q.den with
  | none => sign ++ natChars q.num.natAbs ++ '/' :: natChars q.den
  | some 0 => sign ++ natChars q.num.natAbs
  | some (k + 1) =>
    let n := q.num.natAbs * 10 ^ (k + 1) / q.den
    sign ++ natChars (n / 10 ^ (k + 1)) ++ '.' :: fracChars (k + 1) (n % 10 ^ (k + 1))

def hexDigitChar (n : Nat) : Char :=
  if n < 10 then Char.ofNat (48 + n) else Char.ofNat (87 + n)

/-- `\uXXXX`, four lowercase hex digits. -/
def u4 (n : Nat) : List Char :=
  ['\\', 'u', hexDigitChar (n / 4096 % 16), hexDigitChar (n / 256 % 16),
   hexDigitChar (n / 16 % 16), hexDigitChar (n % 16)]

/-- `json.dumps` escaping of one character (`ensure_ascii=True`). -/
def escChar (c : Char) : List Char :=
  if c = '"' then ['\\', '"']
  else if c = '\\' then ['\\', '\\']
  else if c = '\n' then ['\\', 'n']
  else if c = '\r' then ['\\', 'r']
  else if c = '\t' then ['\\', 't']
  else if c.toNat = 8 then ['\\', 'b']
  else if c.toNat = 12 then ['\\', 'f']
  else if c.toNat < 32 ∨ 127 ≤ c.toNat then
    if c.toNat < 65536 then u4 c.toNat
    else u4 (55296 + (c.toNat - 65536) / 1024) ++ u4 (56320 + (c.toNat - 65536) % 1024)
  else [c]

def escChars : List Char → List Char
  | [] => []
  | c :: t => escChar c ++ escChars t

/-- A serialized JSON string literal: `"` content `"`. -/
def serStr (s : String) : List Char := '"' :: escChars s.toList ++ ['"']

mutual

/-- `json.dumps` of a value (default separators `', '` / `': '`). -/
def serV : Json → List Char
  | .bool false => ['f', 'a', 'l', 's', 'e']
  | .bool true => ['t', 'r', 'u', 'e']
  | .null => ['n', 'u', 'l', 'l']
  | .num q => serNum q
  | .str s => serStr s
  | .arr a => '[' :: serItems a ++ [']']
  | .obj o => '{' :: serMembers o ++ ['}']

def serItems : JsonList → List Char
  | .nil => []
  | .cons h .nil => serV h
  | .cons h (.cons h' t) => serV h ++ ',' :: ' ' :: serItems (.cons h' t)

def serMembers : JsonObj → List Char
  | .nil => []
  | .cons k v .nil => serStr k ++ ':' :: ' ' :: serV v
  | .cons k v (.cons k' v' t) =>
    serStr k ++ ':' :: ' ' :: serV v ++ ',' :: ' ' :: serMembers (.cons k' v' t)

end

/-- `json.dumps(data)` (default arguments), as a `String`. -/
def serialize (j : Json) : String := String.mk (serV j)

/-! ## Parsing: a model of Python `json.loads`

A recursive-descent parser over the character list.  It accepts everything
`json.dumps` emits (whitespace, the two-character escapes, `\uXXXX` with
surrogate pairs) and rejects structurally malformed input, control characters
inside strings, lone surrogates and trailing garbage.  It is lenient where
`json.loads` is stricter in ways no theorem below observes (leading zeros in
numbers are accepted). -/

def isWsChar (c : Char) : Bool := c = ' ' || c = '\t' || c = '\n' || c = '\r'

def skipWs : List Char → List Char
  | [] => []
  | c :: t => if isWsChar c then skipWs t else c :: t

def digitVal (c : Char) : Nat := c.toNat - 48

/-- Longest prefix of decimal digit characters, and the rest. -/
def spanDigits : List Char → List Char × List Char
  | [] => ([], [])
  | c :: t =>
    if c.isDigit then
      let p := spanDigits t
      (c :: p.1, p.2)
    else ([], c :: t)

def charsToNatAux (acc : Nat) : List Char → Nat
  | [] => acc
  | c :: t => charsToNatAux (acc * 10 + digitVal c) t

/-- Value of a big-endian decimal digit string. -/
def charsToNat (cs : List Char) : Nat := charsToNatAux 0 cs

/-- Optional exponent part (`e`/`E`, optional sign, digits): the decimal
exponent as an integer, and the rest of the input. -/
def parseExp (cs : List Char) : Int × List Char :=
  match cs with
  | 'e' :: t => parseExpTail cs t
  | 'E' :: t => parseExpTail cs t
  | _ => (0, cs)
where
  parseExpTail (orig t : List Char) : Int × List Char :=
    match t with
    | '-' :: t2 =>
      let p := spanDigits t2
      if p.1 = [] then (0, orig) else (-(charsToNat p.1 : Int), p.2)
    | '+' :: t2 =>
      let p := spanDigits t2
      if p.1 = [] then (0, orig) else ((charsToNat p.1 : Int), p.2)
    | t2 =>
      let p := spanDigits t2
      if p.1 = [] then (0, orig) else ((charsToNat p.1 : Int), p.2)

/-- Optional fraction part (`.` digits): the fraction digits' value, their
count, and the rest of the input. -/
def parseFrac (cs : List Char) : Nat × Nat × List Char :=
  match cs with
  | '.' :: t =>
    let p := spanDigits t
    if p.1 = [] then (0, 0, cs) else (charsToNat p.1, p.1.length, p.2)
  | _ => (0, 0, cs)

/-- Optional leading minus sign. -/
def stripDash : List Char → Bool × List Char
  | '-' :: t => (true, t)
  | cs => (false, cs)

/-- A JSON number: optional `-`, digits, optional fraction, optional
exponent.  The value is assembled with `mkRat` from the integer mantissa and
the decimal exponent. -/
def parseNum (cs : List Char) : Option (ℚ × List Char) :=
  let sm := stripDash cs
  let p := spanDigits sm.2
  if p.1 = [] then none
  else
    let f := parseFrac p.2
    let e := parseExp f.2.2
    let mantNat : Nat := charsToNat p.1 * 10 ^ f.2.1 + f.1
    let mant : Int := if sm.1 then -(mantNat : Int) else (mantNat : Int)
    let q : ℚ := mkRat (mant * 10 ^ e.1.toNat) (10 ^ (f.2.1 + (-e.1).toNat))
    some (q, e.2)

def hexVal (c : Char) : Option Nat :=
  if '0' ≤ c ∧ c ≤ '9' then some (c.toNat - 48)
  else if 'a' ≤ c ∧ c ≤ 'f' then some (c.toNat - 87)
  else if 'A' ≤ c ∧ c ≤ 'F' then some (c.toNat - 55)
  else none

def hex4 (a b c d : Char) : Option Nat := do
  let va ← hexVal a
  let vb ← hexVal b
  let vc ← hexVal c
  let vd ← hexVal d
  pure (va * 4096 + vb * 256 + vc * 16 + vd)

mutual

/-- Body of a JSON string literal, after the opening quote: the decoded
characters and the input after the closing quote.  `\uXXXX` escapes are
decoded, surrogate pairs combined; lone surrogates and raw control
characters are rejected. -/
def parseStrBody : List Char → Option (List Char × List Char)
  | [] => none
  | '"' :: t => some ([], t)
  | '\\' :: 'u' :: h1 :: h2 :: h3 :: h4 :: t =>
    match hex4 h1 h2 h3 h4 with
    | none => none
    | some n =>
      if 55296 ≤ n ∧ n < 56320 then parseStrBodyLow n t
      else if 56320 ≤ n ∧ n < 57344 then none
      else
        match parseStrBody t with
        | some p => some (Char.ofNat n :: p.1, p.2)
        | none => none
  | '\\' :: e :: t =>
    let dec : Option Char :=
      if e = '"' then some '"'
      else if e = '\\' then some '\\'
      else if e = '/' then some '/'
      else if e = 'b' then some (Char.ofNat 8)
      else if e = 'f' then some (Char.ofNat 12)
      else if e = 'n' then some '\n'
      else if e = 'r' then some '\r'
      else if e = 't' then some '\t'
      else none
    match dec with
    | none => none
    | some c =>
      match parseStrBody t with
      | some p => some (c :: p.1, p.2)
      | none => none
  | c :: t =>
    if c.toNat < 32 then none
    else
      match parseStrBody t with
      | some p => some (c :: p.1, p.2)
      | none => none

/-- After a high surrogate `\uXXXX` escape (value `n`): the matching low
surrogate escape must follow, and the pair decodes to one astral
character. -/
def parseStrBodyLow (n : Nat) : List Char → Option (List Char × List Char)
  | '\\' :: 'u' :: g1 :: g2 :: g3 :: g4 :: t2 =>
    match hex4 g1 g2 g3 g4 with
    | none => none
    | some m =>
      if 56320 ≤ m ∧ m < 57344 then
        match parseStrBody t2 with
        | some p => some (Char.ofNat (65536 + (n - 55296) * 1024 + (m - 56320)) :: p.1, p.2)
        | none => none
      else none
  | _ => none

end

mutual

/-- One JSON value (leading whitespace allowed), and the rest of the input. -/
def parseV : Nat → List Char → Option (Json × List Char)
  | 0, _ => none
  | fuel + 1, cs =>
    match skipWs cs with
    | 'n' :: 'u' :: 'l' :: 'l' :: t => some (.null, t)
    | 't' :: 'r' :: 'u' :: 'e' :: t => some (.bool true, t)
    | 'f' :: 'a' :: 'l' :: 's' :: 'e' :: t => some (.bool false, t)
    | '"' :: t =>
      match parseStrBody t with
      | some p => some (.str (String.mk p.1), p.2)
      | none => none
    | '[' :: t =>
      match parseItems fuel t with
      | some p => some (.arr p.1, p.2)
      | none => none
    | '{' :: t =>
      match parseMembers fuel t with
      | some p => some (.obj p.1, p.2)
      | none => none
    | c :: t =>
      if c.isDigit || c = '-' then
        match parseNum (c :: t) with
        | some p => some (.num p.1, p.2)
        | none => none
      else none
    | [] => none

/-- Array elements after `[`: empty array or a nonempty element list. -/
def parseItems : Nat → List Char → Option (JsonList × List Char)
  | 0, _ => none
  | fuel + 1, cs =>
    match skipWs cs with
    | ']' :: t => some (.nil, t)
    | rest => parseItemsNE fuel rest

/-- One or more comma-separated elements, then `]`. -/
def parseItemsNE : Nat → List Char → Option (JsonList × List Char)
  | 0, _ => none
  | fuel + 1, cs =>
    match parseV fuel cs with
    | none => none
    | some (v, r) =>
      match skipWs r with
      | ',' :: t =>
        match parseItemsNE fuel t with
        | some p => some (.cons v p.1, p.2)
        | none => none
      | ']' :: t => some (.cons v .nil, t)
      | _ => none

/-- Object members after `{`: empty object or a nonempty member list. -/
def parseMembers : Nat → List Char → Option (JsonObj × List Char)
  | 0, _ => none
  | fuel + 1, cs =>
    match skipWs cs with
    | '}' :: t => some (.nil, t)
    | rest => parseMembersNE fuel rest

/-- One or more comma-separated `"key": value` members, then `}`. -/
def parseMembersNE : Nat → List Char → Option (JsonObj × List Char)
  | 0, _ => none
  | fuel + 1, cs =>
    match skipWs cs with
    | '"' :: t =>
      match parseStrBody t with
      | none => none
      | some (kcs, r1) =>
        match skipWs r1 with
        | ':' :: r2 =>
          match parseV fuel r2 with
          | none => none
          | some (v, r3) =>
            match skipWs r3 with
            | ',' :: t2 =>
              match parseMembersNE fuel t2 with
              | some p => some (.cons (String.mk kcs) v p.1, p.2)
              | none => none
            | '}' :: t2 => some (.cons (String.mk kcs) v .nil, t2)
            | _ => none
        | _ => none
    | _ => none

end

/-- `json.loads(s)`: parse one document and reject trailing non-whitespace. -/
def parseJson (s : String) : Option Json :=
  match parseV (3 * s.toList.length + 3) s.toList with
  | some (j, rest) => if skipWs rest = [] then some j else none
  | none => none

/-! ## Flatten engine, pandas variant (load_to_snowflake_pandas.py)

`read_json_files_pandas` (lines 222-249) turns each parsed document into one
DataFrame row via `pd.json_normalize(data)` — nested dicts are flattened into
dot-separated column names, lists and scalars kept as cell values — plus the
metadata columns `filename`, `filepath`, `raw_json = json.dumps(data)`.

`normalize_dataframe_for_normalized_table` (lines 302-389) then computes each
output column with `df.get`, `pd.to_numeric(..., errors='coerce')`,
`.fillna(...)` and `.astype(...)`.  The models below are exact for a
single-document batch (`df.get(col, dflt)` falls back to `dflt` exactly when
no document of the batch has the column; for absent columns in a multi-document
batch the cell is NaN and the same `fillna` defaults apply). -/

/-- `pd.json_normalize` flattening of one document: nested objects become
dot-separated column names, every other value (including lists) is kept as
the cell value.  An empty nested object contributes no columns, as in
pandas. -/
def jsonNormalizePairs : JsonObj → List (String × Json)
  | .nil => []
  | .cons k (.obj inner) t =>
    ((jsonNormalizePairs inner).map (fun p => (k ++ "." ++ p.1, p.2))) ++ jsonNormalizePairs t
  | .cons k v t => (k, v) :: jsonNormalizePairs t

/-- Column lookup in the flattened single-document frame (`col in df.columns`
/ `df[col]`). -/
def colGet : List (String × Json) → String → Option Json
  | [], _ => none
  | p :: t, k => if p.1 = k then some p.2 else colGet t k

/-- Leading and trailing whitespace removed (Python `float(s)` tolerates
surrounding whitespace). -/
def trimWs (cs : List Char) : List Char := ((skipWs cs).reverse |> skipWs).reverse

/-- Python `float(s)` on decimal forms: optional sign, digits with optional
fraction (digits may be on either side of the dot), optional exponent.
`inf`/`nan` words are not modelled (no theorem below evaluates them). -/
def pyFloat (s : String) : Option ℚ :=
  let cs := trimWs s.toList
  let sm : Bool × List Char :=
    match cs with
    | '-' :: t => (true, t)
    | '+' :: t => (false, t)
    | _ => (false, cs)
  let p := spanDigits sm.2
  let f := parseFrac p.2
  if p.1 = [] ∧ f.2.1 = 0 then none
  else
    let e := parseExp f.2.2
    if e.2 = [] then
      let mantNat : Nat := charsToNat p.1 * 10 ^ f.2.1 + f.1
      let mant : Int := if sm.1 then -(mantNat : Int) else (mantNat : Int)
      some (mkRat (mant * 10 ^ e.1.toNat) (10 ^ (f.2.1 + (-e.1).toNat)))
    else none

/-- `pd.to_numeric(cell, errors='coerce')` on one cell: numbers pass through,
booleans become 1/0, `None` and unparseable strings coerce to NaN (`none`).
Container cells are modelled as coercing to NaN as well; no theorem below
evaluates them. -/
def toNumericCoerce : Json → Option ℚ
  | .num q => some q
  | .bool b => some (if b then 1 else 0)
  | .str s => pyFloat s
  | _ => none

/-- `.astype(np.int64)` on a float value: truncation toward zero. -/
def ratTrunc (q : ℚ) : Int := q.num.tdiv (q.den : Int)

/-- A text column: `df.get(col, pd.Series([''] * len(df))).fillna('')`
(lines 313, 315, 330-332, 351).  The default here is a Series, so an absent
column yields `''`; a present `None` cell is filled to `''`; any other cell
value passes through unchanged. -/
def textCol (cols : List (String × Json)) (k : String) : Json :=
  match colGet cols k with
  | none => .str ""
  | some .null => .str ""
  | some v => v

/-- A numeric column: `pd.to_numeric(df.get(col, 0), errors='coerce')
.fillna(0)` (lines 314, 318-323, 354-384).  When the column exists the cell
is coerced and NaN filled with 0.  When the column is absent, `df.get`
returns the scalar default `0`, `pd.to_numeric` then returns a numpy scalar,
and the `.fillna` call raises `AttributeError` — the scalar default is the
one place this code path is not total. -/
def numColQ (cols : List (String × Json)) (k : String) : Except String ℚ :=
  match colGet cols k with
  | none => .error "AttributeError: numpy scalar has no attribute fillna"
  | some v => .ok ((toNumericCoerce v).getD 0)

/-- An int64 numeric column: `numColQ` then `.astype(np.int64)`. -/
def intCol (cols : List (String × Json)) (k : String) : Except String Int :=
  (numColQ cols k).map ratTrunc

/-- The inner `extract_weather_field` helper (lines 335-343): first element
of the `weather` list if it is a nonempty list; a dict element is read with
`.get(field, 0 if field == 'id' then ... else '')`; a non-dict first element
is returned itself for `id` and `''` otherwise; everything else defaults. -/
def extractWeatherField (cols : List (String × Json)) (field : String) : Json :=
  let dflt : Json := if field = "id" then .num 0 else .str ""
  match colGet cols "weather" with
  | some (.arr (.cons h _)) =>
    match h with
    | .obj o => o.getD field dflt
    | _ => if field = "id" then h else .str ""
  | _ => dflt

/-- `.fillna('')` applied to an extracted weather field value. -/
def fillEmpty (v : Json) : Json := if v = .null then .str "" else v

/-- The 29 columns of `WEATHER_DATA_NORMALIZED` as computed by
`normalize_dataframe_for_normalized_table`: text columns keep the cell value
(object dtype), float64 columns are `ℚ`, int64 columns are `Int`. -/
structure NormalizedFrameRow where
  CITY_NAME : Json
  CITY_ID : Int
  COUNTRY_CODE : Json
  LONGITUDE : ℚ
  LATITUDE : ℚ
  WEATHER_ID : Int
  WEATHER_MAIN : Json
  WEATHER_DESCRIPTION : Json
  WEATHER_ICON : Json
  BASE : Json
  TEMPERATURE : ℚ
  FEELS_LIKE : ℚ
  TEMP_MIN : ℚ
  TEMP_MAX : ℚ
  PRESSURE : Int
  HUMIDITY : Int
  SEA_LEVEL : Int
  GROUND_LEVEL : Int
  VISIBILITY : Int
  WIND_SPEED : ℚ
  WIND_DEGREE : Int
  CLOUD_COVERAGE : Int
  DATA_TIMESTAMP : Int
  SUNRISE_TIMESTAMP : Int
  SUNSET_TIMESTAMP : Int
  TIMEZONE_OFFSET : Int
  SYS_TYPE : Int
  SYS_ID : Int
  RESPONSE_CODE : Int
deriving DecidableEq

/-- `WeatherDataLoader.normalize_dataframe_for_normalized_table`
(load_to_snowflake_pandas.py lines 302-389) on a single-document batch,
column computations in source order.  `pd.json_normalize` never produces
`weather[0].id` columns for a list-valued `weather` field, so the
`extract_weather_field` branch of lines 333-348 applies.  The final
`result_df.replace({np.nan: None})` is a no-op after the `fillna` calls. -/
def normalizeForNormalizedTable (data : Json) : Except String NormalizedFrameRow := do
  match data with
  | .obj o =>
    let cols := jsonNormalizePairs o
    let cityId ← intCol cols "id"
    let lon ← numColQ cols "coord.lon"
    let lat ← numColQ cols "coord.lat"
    let temp ← numColQ cols "main.temp"
    let feels ← numColQ cols "main.feels_like"
    let tmin ← numColQ cols "main.temp_min"
    let tmax ← numColQ cols "main.temp_max"
    let pressure ← intCol cols "main.pressure"
    let humidity ← intCol cols "main.humidity"
    let seaLevel ← intCol cols "main.sea_level"
    let grndLevel ← intCol cols "main.grnd_level"
    let visibility ← intCol cols "visibility"
    let windSpeed ← numColQ cols "wind.speed"
    let windDeg ← intCol cols "wind.deg"
    let cloudCover ← intCol cols "clouds.all"
    let dt ← intCol cols "dt"
    let sunrise ← intCol cols "sys.sunrise"
    let sunset ← intCol cols "sys.sunset"
    let timezone ← intCol cols "timezone"
    let sysType ← intCol cols "sys.type"
    let sysId ← intCol cols "sys.id"
    let cod ← intCol cols "cod"
    pure {
      CITY_NAME := textCol cols "name"
      CITY_ID := cityId
      COUNTRY_CODE := textCol cols "sys.country"
      LONGITUDE := lon
      LATITUDE := lat
      WEATHER_ID := ratTrunc ((toNumericCoerce (extractWeatherField cols "id")).getD 0)
      WEATHER_MAIN := fillEmpty (extractWeatherField cols "main")
      WEATHER_DESCRIPTION := fillEmpty (extractWeatherField cols "description")
      WEATHER_ICON := fillEmpty (extractWeatherField cols "icon")
      BASE := textCol cols "base"
      TEMPERATURE := temp
      FEELS_LIKE := feels
      TEMP_MIN := tmin
      TEMP_MAX := tmax
      PRESSURE := pressure
      HUMIDITY := humidity
      SEA_LEVEL := seaLevel
      GROUND_LEVEL := grndLevel
      VISIBILITY := visibility
      WIND_SPEED := windSpeed
      WIND_DEGREE := windDeg
      CLOUD_COVERAGE := cloudCover
      DATA_TIMESTAMP := dt
      SUNRISE_TIMESTAMP := sunrise
      SUNSET_TIMESTAMP := sunset
      TIMEZONE_OFFSET := timezone
      SYS_TYPE := sysType
      SYS_ID := sysId
      RESPONSE_CODE := cod
    }
  | _ => .error "NotImplementedError: json_normalize expects dict input"

/-- The four columns of `WEATHER_DATA_RAW` as computed by
`normalize_dataframe_for_raw_table` (lines 262-300). -/
structure RawTableRow where
  CITY_NAME : Json
  CITY_ID : Int
  COUNTRY_CODE : Json
  WEATHER_JSON : String
deriving DecidableEq

/-- `WeatherDataLoader.normalize_dataframe_for_raw_table` on a
single-document batch: `CITY_NAME` defaults to `'Unknown'` (line 273),
`CITY_ID` uses the same scalar-default numeric path as above (line 274),
`COUNTRY_CODE` defaults to `''` (line 275), and `WEATHER_JSON` is the
`raw_json` column, i.e. `json.dumps(data)` stored by
`read_json_files_pandas` (line 240). -/
def normalizeForRawTable (data : Json) : Except String RawTableRow := do
  match data with
  | .obj o =>
    let cols := jsonNormalizePairs o
    let cityId ← intCol cols "id"
    pure {
      CITY_NAME :=
        match colGet cols "name" with
        | none => .str "Unknown"
        | some .null => .str "Unknown"
        | some v => v
      CITY_ID := cityId
      COUNTRY_CODE := textCol cols "sys.country"
      WEATHER_JSON := serialize data
    }
  | _ => .error "NotImplementedError: json_normalize expects dict input"

/-! ## Chunked bulk-insert writer

All three loaders slice with `for i in range(0, total_records, BATCH_SIZE):
chunk = df.iloc[i:i + BATCH_SIZE]` (load_to_snowflake_pandas.py lines 519-520
and 598-599, load_to_mysql_pandas.py lines 513-514, 560-561), issuing one
insert call per slice; `SNOWFLAKE_BATCH_SIZE = MYSQL_BATCH_SIZE = 5000`. -/

/-- The slices `rows[i : i+B]` for `i = 0, B, 2B, ...`; the first argument of
the auxiliary function is structural fuel (the list length suffices when
`0 < B`). -/
def chunksAux (B : Nat) : Nat → List α → List (List α)
  | 0, _ => []
  | _ + 1, [] => []
  | f + 1, x :: xs => (x :: xs).take B :: chunksAux B f ((x :: xs).drop B)

def chunks (B : Nat) (l : List α) : List (List α) := chunksAux B l.length l

/-- Observable outcome of one run of
`WeatherDataLoader.load_dataframe_to_raw_table` /
`load_dataframe_to_normalized_table` (load_to_snowflake_pandas.py lines
498-563 and 565-646) against an environment in which executing chunk number
`failAt` (0-based) raises. -/
structure LoadOutcome (α : Type) where
  /-- Chunks passed to `cursor.execute`, in order, including a failing one. -/
  issued : List (List α)
  /-- Rows whose insert has been committed (`conn.commit()` every 10th chunk
  and once after the loop). -/
  committedRows : Nat
  /-- Whether the `except` handler ran `conn.rollback()`. -/
  rolledBack : Bool
  /-- The boolean the method returns to its caller. -/
  callerResult : Bool
deriving DecidableEq

/-- The loader loop over the chunk list: execute each chunk, commit when
`(i // BATCH_SIZE) % 10 == 0` (lines 551-552, 634-635), final commit after
the loop (lines 554, 637); on an exception: print, `conn.rollback()`,
`return False` (lines 558-563, 641-646). -/
def simLoadAux (failAt : Option Nat) : Nat → Nat → Nat → List (List α) → LoadOutcome α
  | _, committed, pending, [] =>
    { issued := [], committedRows := committed + pending, rolledBack := false, callerResult := true }
  | j, committed, pending, c :: rest =>
    if failAt = some j then
      { issued := [c], committedRows := committed, rolledBack := true, callerResult := false }
    else
      let pending2 := pending + c.length
      let st : Nat × Nat :=
        if j % 10 = 0 then (committed + pending2, 0) else (committed, pending2)
      let o := simLoadAux failAt (j + 1) st.1 st.2 rest
      { o with issued := c :: o.issued }

/-- One run of the chunked Snowflake writer on `rows` with batch size `B`;
`failAt = some k` means the k-th `cursor.execute` raises, `none` means no
failure.  An empty input returns `False` without issuing anything
(`if df.empty` guard, lines 503-505 / 570-572). -/
def simLoad (B : Nat) (rows : List α) (failAt : Option Nat) : LoadOutcome α :=
  if rows.isEmpty then
    { issued := [], committedRows := 0, rolledBack := false, callerResult := false }
  else simLoadAux failAt 0 0 0 (chunks B rows)

/-- Success-path table effect of one writer run: each chunk's multi-row
INSERT appends the chunk's rows to the table, in order (no key, no dedup, no
upsert — `INSERT INTO ... VALUES ...` / `to_sql(if_exists='append')`). -/
def writerAppend (B : Nat) (table rows : List α) : List α :=
  (chunks B rows).foldl (fun t c => t ++ c) table

/-! ## Source enumeration (load_to_snowflake.py `read_json_files`)

Lines 74-98: for every `*.json` file, parse it; on `json.JSONDecodeError`
print a parse-error line and continue; on any other exception print a
read-error line and continue.  A file is modelled as its name and
`Option String` content (`none` = unreadable). -/

/-- `read_json_files`: first component the parsed entries (filename, parsed
document), second component the skip log (filename, reason), both in
directory order. -/
def readJsonFiles : List (String × Option String) → List (String × Json) × List (String × String)
  | [] => ([], [])
  | (name, content) :: rest =>
    let r := readJsonFiles rest
    match content with
    | none => (r.1, (name, "read error") :: r.2)
    | some s =>
      match parseJson s with
      | some j => ((name, j) :: r.1, r.2)
      | none => (r.1, (name, "parse error") :: r.2)

/-! ## SQL string embedding (both Snowflake loaders)

`generate_snowflake_insert_variant` (load_to_snowflake.py lines 124-150)
embeds `json.dumps(data).replace("'", "''")` into a single-quoted literal
inside `PARSE_JSON('...')`.

`load_dataframe_to_raw_table` (load_to_snowflake_pandas.py lines 524-538)
instead embeds the JSON between dollar-quoted delimiters:
`delimiter = '$JSON$'`, switched to `'$WEATHER_JSON$'` when the text contains
`'$JSON$'`, producing `PARSE_JSON({delimiter}{weather_json}{delimiter})`. -/

/-- Python `needle in hay` on strings (contiguous substring test). -/
def subList (needle : List Char) : List Char → Bool
  | [] => needle.isPrefixOf []
  | c :: t => needle.isPrefixOf (c :: t) || subList needle t

def pyIn (needle hay : String) : Bool := subList needle.toList hay.toList

/-- Delimiter choice of lines 530-534: `'$JSON$'`, or `'$WEATHER_JSON$'`
when the serialized JSON contains `'$JSON$'`. -/
def selectDelim (weather_json : String) : String :=
  if pyIn "$JSON$" weather_json then "$WEATHER_JSON$" else "$JSON$"

/-- The argument text `{delimiter}{weather_json}{delimiter}` placed inside
`PARSE_JSON(...)` (line 537). -/
def embedParseJsonArg (wj : String) : List Char :=
  (selectDelim wj).toList ++ wj.toList ++ (selectDelim wj).toList

/-- Split at the first occurrence of `needle`: the text before it and the
text after it. -/
def splitFirst (needle : List Char) : List Char → Option (List Char × List Char)
  | [] => if needle.isPrefixOf [] then some ([], []) else none
  | c :: t =>
    if needle.isPrefixOf (c :: t) then some ([], (c :: t).drop needle.length)
    else
      match splitFirst needle t with
      | some p => some (c :: p.1, p.2)
      | none => none

/-- Dialect model: how the target reads a dollar-quoted literal.  After the
opening delimiter, the literal's value runs to the first occurrence of the
delimiter; everything in between is taken verbatim (no escape processing). -/
def dollarLiteralValue (delim : String) (region : List Char) : Option (List Char × List Char) :=
  if delim.toList.isPrefixOf region then splitFirst delim.toList (region.drop delim.toList.length)
  else none

/-- Dialect model: how the target reads the body of a single-quoted string
literal (the text between the outer quotes).  `''` is an escaped quote; a
backslash escapes the next character (`\n`, `\t`, `\r`, `\b`, `\f`, `\0`
become control characters, anything else becomes itself); a lone quote would
terminate the literal early, i.e. the written statement does not parse as
intended (`none`). -/
def sqDecode : List Char → Option (List Char)
  | [] => some []
  | '\'' :: '\'' :: t =>
    match sqDecode t with
    | some r => some ('\'' :: r)
    | none => none
  | ['\''] => none
  | '\'' :: _ :: _ => none
  | ['\\'] => none
  | '\\' :: c :: t =>
    let c' : Char :=
      if c = 'n' then '\n'
      else if c = 't' then '\t'
      else if c = 'r' then '\r'
      else if c = 'b' then Char.ofNat 8
      else if c = 'f' then Char.ofNat 12
      else if c = '0' then Char.ofNat 0
      else c
    match sqDecode t with
    | some r => some (c' :: r)
    | none => none
  | c :: t =>
    match sqDecode t with
    | some r => some (c :: r)
    | none => none

/-- The single-quoted payload `json.dumps(data).replace("'", "''")` embedded
by `generate_snowflake_insert_variant` (lines 136-140). -/
def variantEscapedJson (d : Json) : List Char := replQuoteChars (serV d)

/-! ### Whole-document well-formedness used by the serialization theorems -/

mutual

/-- Every number in the document is an exact decimal — true of every document
`json.load` can produce at the decimal level. -/
def decimalNumsV : Json → Bool
  | .null => true
  | .bool _ => true
  | .num q => decide q.isDecimal
  | .str _ => true
  | .arr a => decimalNumsA a
  | .obj o => decimalNumsO o

def decimalNumsA : JsonList → Bool
  | .nil => true
  | .cons h t => decimalNumsV h && decimalNumsA t

def decimalNumsO : JsonObj → Bool
  | .nil => true
  | .cons _ v t => decimalNumsV v && decimalNumsO t

end

/-! ### Auxiliary definitions used by the proofs -/

/-- Little-endian digit list value. -/
def valLE : List Nat → Nat
  | [] => 0
  | d :: t => d + 10 * valLE t

/-- The character after a serialized number must not extend it. -/
def numSafeHead : List Char → Prop
  | [] => True
  | c :: _ => c.isDigit = false ∧ c ≠ '.' ∧ c ≠ 'e' ∧ c ≠ 'E'

/-- The head of `l`, if any, is not a decimal digit. -/
def headNotDigit : List Char → Prop
  | [] => True
  | c :: _ => c.isDigit = false

mutual

/-- Fuel measure for the parser roundtrip. -/
def sizeV : Json → Nat
  | .null => 1
  | .bool _ => 1
  | .num _ => 1
  | .str _ => 1
  | .arr a => sizeA a + 2
  | .obj o => sizeO o + 2

def sizeA : JsonList → Nat
  | .nil => 1
  | .cons h t => sizeV h + sizeA t + 2

def sizeO : JsonObj → Nat
  | .nil => 1
  | .cons _ v t => sizeV v + sizeO t + 2

end

/-- The serialized members after the first one: empty, or `", "` then the
rest. -/
def membersTail : JsonObj → List Char
  | .nil => []
  | .cons k2 v2 t2 => ',' :: ' ' :: serMembers (.cons k2 v2 t2)

/-! ## Theorems -/

theorem valLE_natDigitsAux : ∀ f n, n ≤ f → valLE (natDigitsAux f n) = n := by
  intro f
  induction f with
  | zero => intro n hn; interval_cases n; rfl
  | succ f ih =>
    intro n hn
    rw [natDigitsAux]
    by_cases h : n = 0
    · simp [h, valLE]
    · simp only [h, if_false, valLE]
      rw [ih (n / 10) (by omega)]
      omega

theorem natDigitsAux_lt_ten : ∀ f n d, d ∈ natDigitsAux f n → d < 10 := by
  intro f
  induction f with
  | zero =>
    intro n d hd
    rw [show natDigitsAux 0 n = [] from rfl] at hd
    exact absurd hd (List.not_mem_nil d)
  | succ f ih =>
    intro n d hd
    rw [natDigitsAux] at hd
    by_cases h : n = 0
    · simp [h] at hd
    · simp only [h, if_false, List.mem_cons] at hd
      rcases hd with h1 | h2
      · omega
      · exact ih _ _ h2

theorem valLE_natDigits (n : Nat) : valLE (natDigits n) = n :=
  valLE_natDigitsAux n n le_rfl

theorem charsToNatAux_append (acc : Nat) (l1 l2 : List Char) :
    charsToNatAux acc (l1 ++ l2) = charsToNatAux (charsToNatAux acc l1) l2 := by
  induction l1 generalizing acc with
  | nil => rfl
  | cons c t ih =>
    rw [List.cons_append]
    show charsToNatAux (acc * 10 + digitVal c) (t ++ l2) = _
    rw [ih]
    rfl

theorem digitVal_digitChar (d : Nat) (hd : d < 10) : digitVal (digitChar d) = d := by
  interval_cases d <;> rfl

theorem isDigit_digitChar (d : Nat) (hd : d < 10) : (digitChar d).isDigit = true := by
  interval_cases d <;> rfl

theorem charsToNat_rev_digits (ds : List Nat) (h : ∀ d ∈ ds, d < 10) :
    charsToNat ((ds.reverse).map digitChar) = valLE ds := by
  induction ds with
  | nil => rfl
  | cons d t ih =>
    have hd : d < 10 := h d (by simp)
    have ht : ∀ x ∈ t, x < 10 := fun x hx => h x (by simp [hx])
    simp only [List.reverse_cons, List.map_append, List.map_cons, List.map_nil]
    unfold charsToNat
    rw [charsToNatAux_append]
    show charsToNatAux 0 (List.map digitChar t.reverse) * 10 + digitVal (digitChar d)
      = valLE (d :: t)
    rw [digitVal_digitChar d hd]
    show _ = d + 10 * valLE t
    rw [show charsToNatAux 0 (List.map digitChar t.reverse) = valLE t from ih ht]
    ring

theorem charsToNat_natChars (n : Nat) : charsToNat (natChars n) = n := by
  unfold natChars natDigits
  by_cases h : n = 0
  · subst h; rfl
  · simp only [h, if_false]
    rw [charsToNat_rev_digits _ (natDigitsAux_lt_ten n n)]
    exact valLE_natDigitsAux n n le_rfl

theorem natChars_digits (n : Nat) : ∀ c ∈ natChars n, c.isDigit = true := by
  unfold natChars
  by_cases h : n = 0
  · subst h; intro c hc; simp at hc; subst hc; rfl
  · simp only [h, if_false]
    intro c hc
    simp only [List.mem_map, List.mem_reverse] at hc
    obtain ⟨d, hd, rfl⟩ := hc
    exact isDigit_digitChar d (natDigitsAux_lt_ten n n d hd)

theorem natChars_ne_nil (n : Nat) : natChars n ≠ [] := by
  unfold natChars
  by_cases h : n = 0
  · simp [h]
  · simp only [h, if_false]
    intro hc
    simp only [List.map_eq_nil_iff, List.reverse_eq_nil_iff] at hc
    have : valLE (natDigits n) = n := valLE_natDigits n
    rw [hc] at this
    exact h this.symm

theorem fracDigitsLE_lt_ten : ∀ k m d, d ∈ fracDigitsLE k m → d < 10 := by
  intro k
  induction k with
  | zero => intro m d hd; rw [show fracDigitsLE 0 m = [] from rfl] at hd; simp at hd
  | succ k ih =>
    intro m d hd
    rw [show fracDigitsLE (k + 1) m = m % 10 :: fracDigitsLE k (m / 10) from rfl] at hd
    rcases List.mem_cons.mp hd with h1 | h2
    · omega
    · exact ih _ _ h2

theorem valLE_fracDigitsLE : ∀ k m, m < 10 ^ k → valLE (fracDigitsLE k m) = m := by
  intro k
  induction k with
  | zero => intro m hm; interval_cases m; rfl
  | succ k ih =>
    intro m hm
    rw [show fracDigitsLE (k + 1) m = m % 10 :: fracDigitsLE k (m / 10) from rfl]
    show m % 10 + 10 * valLE (fracDigitsLE k (m / 10)) = m
    rw [ih (m / 10) (by rw [pow_succ] at hm; omega)]
    omega

theorem length_fracDigitsLE : ∀ k m, (fracDigitsLE k m).length = k := by
  intro k
  induction k with
  | zero => intro m; rfl
  | succ k ih =>
    intro m
    rw [show fracDigitsLE (k + 1) m = m % 10 :: fracDigitsLE k (m / 10) from rfl]
    simp [ih]

theorem charsToNat_fracChars (k m : Nat) (hm : m < 10 ^ k) :
    charsToNat (fracChars k m) = m := by
  unfold fracChars
  rw [charsToNat_rev_digits _ (fracDigitsLE_lt_ten k m)]
  exact valLE_fracDigitsLE k m hm

theorem fracChars_digits (k m : Nat) : ∀ c ∈ fracChars k m, c.isDigit = true := by
  unfold fracChars
  intro c hc
  simp only [List.mem_map, List.mem_reverse] at hc
  obtain ⟨d, hd, rfl⟩ := hc
  exact isDigit_digitChar d (fracDigitsLE_lt_ten k m d hd)

theorem length_fracChars (k m : Nat) : (fracChars k m).length = k := by
  unfold fracChars
  simp [length_fracDigitsLE]

/-- `spanDigits` consumes exactly a digit block followed by a non-digit. -/
theorem spanDigits_exact (ds : List Char) (rest : List Char)
    (hds : ∀ c ∈ ds, c.isDigit = true)
    (hrest : headNotDigit rest) :
    spanDigits (ds ++ rest) = (ds, rest) := by
  induction ds with
  | nil =>
    match rest with
    | [] => rfl
    | c :: t =>
      show spanDigits (c :: t) = ([], c :: t)
      rw [spanDigits]
      simp only [show c.isDigit = false from hrest]
      rfl
  | cons c t ih =>
    have hc : c.isDigit = true := hds c (by simp)
    show spanDigits (c :: (t ++ rest)) = (c :: t, rest)
    rw [spanDigits]
    simp only [hc, if_true]
    rw [ih (fun x hx => hds x (by simp [hx]))]

theorem decExpFrom_dvd : ∀ f den k j, decExpFrom den f k = some j → den ∣ 10 ^ j := by
  intro f
  induction f with
  | zero => intro den k j h; exact absurd h (by rw [show decExpFrom den 0 k = none from rfl]; simp)
  | succ f ih =>
    intro den k j h
    rw [show decExpFrom den (f + 1) k = if den ∣ 10 ^ k then some k else decExpFrom den f (k + 1)
        from rfl] at h
    by_cases hd : den ∣ 10 ^ k
    · simp only [hd, if_true, Option.some.injEq] at h
      subst h; exact hd
    · simp only [hd, if_false] at h
      exact ih den (k + 1) j h

theorem isDecimal_spec (q : ℚ) (hq : q.isDecimal) :
    ∃ k, decExp q.den = some k ∧ q.den ∣ 10 ^ k := by
  unfold Rat.isDecimal at hq
  obtain ⟨k, hk⟩ := Option.isSome_iff_exists.mp hq
  exact ⟨k, hk, decExpFrom_dvd _ _ _ _ hk⟩

theorem mkRat_eq_of_cross (a : Int) (b : Nat) (hb : b ≠ 0) (q : ℚ)
    (h : a * q.den = q.num * b) : mkRat a b = q := by
  rw [Rat.mkRat_eq_div]
  have hbq : (b : ℚ) ≠ 0 := by exact_mod_cast hb
  have hden : (q.den : ℚ) ≠ 0 := by exact_mod_cast q.den_nz
  have hc : (a : ℚ) * (q.den : ℚ) = (q.num : ℚ) * (b : ℚ) := by exact_mod_cast h
  rw [div_eq_iff hbq, ← Rat.num_div_den q]
  field_simp
  linear_combination hc

theorem parseFrac_no_dot (rest : List Char) (h : ∀ t, rest ≠ '.' :: t) :
    parseFrac rest = (0, 0, rest) := by
  rw [parseFrac.eq_def]
  split
  · rename_i t
    exact absurd rfl (h t)
  · rfl

theorem parseExp_no_e (rest : List Char)
    (h : ∀ t, rest ≠ 'e' :: t ∧ rest ≠ 'E' :: t) :
    parseExp rest = (0, rest) := by
  rw [parseExp.eq_def]
  split
  · rename_i t; exact absurd rfl (h t).1
  · rename_i t; exact absurd rfl (h t).2
  · rfl

theorem natChars_obtain (n : Nat) : ∃ c cs, natChars n = c :: cs :=
  List.exists_cons_of_ne_nil (natChars_ne_nil n)

theorem stripDash_dash (t : List Char) : stripDash ('-' :: t) = (true, t) := rfl

theorem stripDash_no_dash (cs : List Char) (h : ∀ t, cs ≠ '-' :: t) :
    stripDash cs = (false, cs) := by
  rw [stripDash.eq_def]
  split
  · rename_i t; exact absurd rfl (h t)
  · rfl

theorem parseNum_serNum (q : ℚ) (hq : q.isDecimal) (rest : List Char) (hrest : numSafeHead rest) :
    parseNum (serNum q ++ rest) = some (q, rest) := by
  obtain ⟨k, hk, hdvd⟩ := isDecimal_spec q hq
  have hrestD : headNotDigit rest := by
    cases rest with
    | nil => trivial
    | cons c t => exact hrest.1
  have hrestDot : ∀ t, rest ≠ '.' :: t := by
    intro t hc
    rw [hc] at hrest
    exact hrest.2.1 rfl
  have hrestE : ∀ t, rest ≠ 'e' :: t ∧ rest ≠ 'E' :: t := by
    intro t
    constructor
    · intro hc; rw [hc] at hrest; exact hrest.2.2.1 rfl
    · intro hc; rw [hc] at hrest; exact hrest.2.2.2 rfl
  cases k with
  | zero =>
    have hden : q.den = 1 := Nat.dvd_one.mp (by simpa using hdvd)
    have hser : serNum q = (if q.num < 0 then ['-'] else []) ++ natChars q.num.natAbs := by
      unfold serNum; rw [hk]
    obtain ⟨c, cs, hcs⟩ := natChars_obtain q.num.natAbs
    have hdigs : ∀ x ∈ c :: cs, x.isDigit = true := by
      rw [← hcs]; exact natChars_digits _
    have hstrip : stripDash ((c :: cs) ++ rest) = (false, (c :: cs) ++ rest) := by
      refine stripDash_no_dash _ ?_
      intro t hc
      rw [show (c :: cs) ++ rest = c :: (cs ++ rest) from rfl] at hc
      injection hc with h1 h2
      have := hdigs c (by simp)
      rw [h1] at this
      exact absurd this (by decide)
    by_cases hneg : q.num < 0
    · rw [hser, if_pos hneg, hcs]
      show parseNum ('-' :: ((c :: cs) ++ rest)) = some (q, rest)
      simp only [parseNum, stripDash_dash]
      rw [spanDigits_exact (c :: cs) rest hdigs hrestD]
      simp only [if_neg (List.cons_ne_nil c cs)]
      rw [parseFrac_no_dot rest hrestDot]
      simp only []
      rw [parseExp_no_e rest hrestE]
      simp only [pow_zero, mul_one, add_zero, Int.toNat_zero, if_true, neg_zero]
      rw [← hcs, charsToNat_natChars]
      refine congrArg some (Prod.ext ?_ rfl)
      exact mkRat_eq_of_cross _ _ one_ne_zero q (by rw [hden]; omega)
    · rw [hser, if_neg hneg, hcs]
      show parseNum ((c :: cs) ++ rest) = some (q, rest)
      simp only [parseNum, hstrip]
      rw [spanDigits_exact (c :: cs) rest hdigs hrestD]
      simp only [if_neg (List.cons_ne_nil c cs)]
      rw [parseFrac_no_dot rest hrestDot]
      simp only []
      rw [parseExp_no_e rest hrestE]
      simp only [pow_zero, mul_one, add_zero, Int.toNat_zero, if_false, neg_zero,
        Bool.false_eq_true]
      rw [← hcs, charsToNat_natChars]
      refine congrArg some (Prod.ext ?_ rfl)
      exact mkRat_eq_of_cross _ _ one_ne_zero q (by rw [hden]; omega)
  | succ k =>
    have hPpos : 0 < 10 ^ (k + 1) := Nat.pos_pow_of_pos _ (by norm_num)
    have hdvdn : q.den ∣ q.num.natAbs * 10 ^ (k + 1) := Dvd.dvd.mul_left hdvd _
    set P : Nat := 10 ^ (k + 1) with hP
    set n : Nat := q.num.natAbs * P / q.den with hn
    have hnd : n * q.den = q.num.natAbs * P := Nat.div_mul_cancel hdvdn
    have hser : serNum q =
        (if q.num < 0 then ['-'] else []) ++
          (natChars (n / P) ++ '.' :: fracChars (k + 1) (n % P)) := by
      unfold serNum; rw [hk]
      simp only [← hP, ← hn, List.append_assoc]
    obtain ⟨c, cs, hcs⟩ := natChars_obtain (n / P)
    have hserrest : ∀ sgn : List Char,
        (sgn ++ (natChars (n / P) ++ '.' :: fracChars (k + 1) (n % P))) ++ rest
          = sgn ++ ((c :: cs) ++ ('.' :: (fracChars (k + 1) (n % P) ++ rest))) := by
      intro sgn
      rw [hcs]
      simp [List.append_assoc]
    have hdigs : ∀ x ∈ c :: cs, x.isDigit = true := by
      rw [← hcs]; exact natChars_digits _
    have hfdigs : ∀ x ∈ fracChars (k + 1) (n % P), x.isDigit = true := fracChars_digits _ _
    have hfne : fracChars (k + 1) (n % P) ≠ [] := by
      intro hc
      have := length_fracChars (k + 1) (n % P)
      rw [hc] at this
      simp at this
    have hmod : n % P < 10 ^ (k + 1) := by rw [hP]; exact Nat.mod_lt _ hPpos
    have hfrac : parseFrac ('.' :: (fracChars (k + 1) (n % P) ++ rest)) =
        (n % P, k + 1, rest) := by
      simp only [parseFrac]
      rw [spanDigits_exact _ rest hfdigs hrestD]
      simp only [if_neg hfne]
      rw [charsToNat_fracChars _ _ hmod, length_fracChars]
    have hdot : headNotDigit ('.' :: (fracChars (k + 1) (n % P) ++ rest)) := by
      show ('.' : Char).isDigit = false
      decide
    have hstrip : stripDash ((c :: cs) ++ ('.' :: (fracChars (k + 1) (n % P) ++ rest)))
        = (false, (c :: cs) ++ ('.' :: (fracChars (k + 1) (n % P) ++ rest))) := by
      refine stripDash_no_dash _ ?_
      intro t hc
      rw [show (c :: cs) ++ ('.' :: (fracChars (k + 1) (n % P) ++ rest))
            = c :: (cs ++ ('.' :: (fracChars (k + 1) (n % P) ++ rest))) from rfl] at hc
      injection hc with h1 h2
      have := hdigs c (by simp)
      rw [h1] at this
      exact absurd this (by decide)
    have hdm : n / P * 10 ^ (k + 1) + n % P = n := by
      rw [← hP, Nat.mul_comm]
      exact Nat.div_add_mod n P
    have hcast : ((n : Int)) * q.den = (q.num.natAbs : Int) * P := by exact_mod_cast hnd
    by_cases hneg : q.num < 0
    · rw [hser, if_pos hneg, hserrest]
      show parseNum ('-' :: ((c :: cs) ++ ('.' :: (fracChars (k + 1) (n % P) ++ rest))))
          = some (q, rest)
      simp only [parseNum, stripDash_dash]
      rw [spanDigits_exact (c :: cs) _ hdigs hdot]
      simp only [if_neg (List.cons_ne_nil c cs)]
      rw [hfrac]
      simp only []
      rw [parseExp_no_e rest hrestE]
      simp only [Int.toNat_zero, pow_zero, mul_one, neg_zero, add_zero, if_true]
      rw [← hcs, charsToNat_natChars, hdm]
      refine congrArg some (Prod.ext ?_ rfl)
      refine mkRat_eq_of_cross _ _ (by positivity) q ?_
      have habs : (q.num.natAbs : Int) = -q.num := by omega
      rw [habs] at hcast
      rw [← hP]
      linear_combination -hcast
    · rw [hser, if_neg hneg, hserrest]
      show parseNum ((c :: cs) ++ ('.' :: (fracChars (k + 1) (n % P) ++ rest)))
          = some (q, rest)
      simp only [parseNum, hstrip]
      rw [spanDigits_exact (c :: cs) _ hdigs hdot]
      simp only [if_neg (List.cons_ne_nil c cs)]
      rw [hfrac]
      simp only []
      rw [parseExp_no_e rest hrestE]
      simp only [Int.toNat_zero, pow_zero, mul_one, neg_zero, add_zero, if_false,
        Bool.false_eq_true]
      rw [← hcs, charsToNat_natChars, hdm]
      refine congrArg some (Prod.ext ?_ rfl)
      refine mkRat_eq_of_cross _ _ (by positivity) q ?_
      have habs : (q.num.natAbs : Int) = q.num := by omega
      rw [habs] at hcast
      rw [← hP]
      linear_combination hcast

theorem char_toNat_valid (c : Char) :
    c.toNat < 55296 ∨ (57343 < c.toNat ∧ c.toNat < 1114112) := by
  have h := c.valid
  unfold UInt32.isValidChar Nat.isValidChar at h
  unfold Char.toNat
  rcases h with h | h
  · left; exact h
  · right; omega

theorem hexVal_hexDigitChar (d : Nat) (hd : d < 16) : hexVal (hexDigitChar d) = some d := by
  interval_cases d <;> rfl

theorem hex4_digits (n : Nat) (h : n < 65536) :
    hex4 (hexDigitChar (n / 4096 % 16)) (hexDigitChar (n / 256 % 16))
      (hexDigitChar (n / 16 % 16)) (hexDigitChar (n % 16)) = some n := by
  unfold hex4
  rw [hexVal_hexDigitChar _ (by omega), hexVal_hexDigitChar _ (by omega),
      hexVal_hexDigitChar _ (by omega), hexVal_hexDigitChar _ (by omega)]
  show some _ = some n
  congr 1
  omega

theorem parseStrBody_u4 (n : Nat) (X : List Char)
    (hlo : n < 55296 ∨ 57343 < n) (hhi : n < 65536) :
    parseStrBody (u4 n ++ X) =
      Option.map (fun p => (Char.ofNat n :: p.1, p.2)) (parseStrBody X) := by
  show parseStrBody ('\\' :: 'u' :: hexDigitChar (n / 4096 % 16) :: hexDigitChar (n / 256 % 16)
      :: hexDigitChar (n / 16 % 16) :: hexDigitChar (n % 16) :: X) = _
  rw [parseStrBody]
  rw [hex4_digits n hhi]
  have h1 : ¬(55296 ≤ n ∧ n < 56320) := by omega
  have h2 : ¬(56320 ≤ n ∧ n < 57344) := by omega
  simp only [h1, if_false, h2]
  cases h : parseStrBody X with
  | none => rfl
  | some p => rfl

theorem parseStrBody_surrogate (v : Nat) (X : List Char) (hv : v < 1048576) :
    parseStrBody ((u4 (55296 + v / 1024) ++ u4 (56320 + v % 1024)) ++ X) =
      Option.map (fun p => (Char.ofNat (65536 + v) :: p.1, p.2)) (parseStrBody X) := by
  rw [List.append_assoc]
  show parseStrBody ('\\' :: 'u' :: hexDigitChar ((55296 + v / 1024) / 4096 % 16)
      :: hexDigitChar ((55296 + v / 1024) / 256 % 16)
      :: hexDigitChar ((55296 + v / 1024) / 16 % 16)
      :: hexDigitChar ((55296 + v / 1024) % 16) :: (u4 (56320 + v % 1024) ++ X)) = _
  rw [parseStrBody]
  rw [hex4_digits _ (by omega)]
  have h1 : 55296 ≤ 55296 + v / 1024 ∧ 55296 + v / 1024 < 56320 := by omega
  simp only [h1, and_self, if_true]
  show parseStrBodyLow (55296 + v / 1024) ('\\' :: 'u'
      :: hexDigitChar ((56320 + v % 1024) / 4096 % 16)
      :: hexDigitChar ((56320 + v % 1024) / 256 % 16)
      :: hexDigitChar ((56320 + v % 1024) / 16 % 16)
      :: hexDigitChar ((56320 + v % 1024) % 16) :: X) = _
  rw [parseStrBodyLow]
  rw [hex4_digits _ (by omega)]
  have h2 : 56320 ≤ 56320 + v % 1024 ∧ 56320 + v % 1024 < 57344 := by omega
  simp only [h2, and_self, if_true]
  have h3 : 65536 + (55296 + v / 1024 - 55296) * 1024 + (56320 + v % 1024 - 56320)
      = 65536 + v := by omega
  rw [h3]
  cases h : parseStrBody X with
  | none => rfl
  | some p => rfl

theorem parseStrBody_escChar (c : Char) (X : List Char) :
    parseStrBody (escChar c ++ X) = Option.map (fun p => (c :: p.1, p.2)) (parseStrBody X) := by
  by_cases h1 : c = '"'
  · subst h1
    show parseStrBody ('\\' :: '"' :: X) = _
    cases h : parseStrBody X with
    | none => simp [parseStrBody, h]
    | some p => simp [parseStrBody, h]
  by_cases h2 : c = '\\'
  · subst h2
    show parseStrBody ('\\' :: '\\' :: X) = _
    cases h : parseStrBody X with
    | none => simp [parseStrBody, h]
    | some p => simp [parseStrBody, h]
  by_cases h3 : c = '\n'
  · subst h3
    show parseStrBody ('\\' :: 'n' :: X) = _
    cases h : parseStrBody X with
    | none => simp [parseStrBody, h]
    | some p => simp [parseStrBody, h]
  by_cases h4 : c = '\r'
  · subst h4
    show parseStrBody ('\\' :: 'r' :: X) = _
    cases h : parseStrBody X with
    | none => simp [parseStrBody, h]
    | some p => simp [parseStrBody, h]
  by_cases h5 : c = '\t'
  · subst h5
    show parseStrBody ('\\' :: 't' :: X) = _
    cases h : parseStrBody X with
    | none => simp [parseStrBody, h]
    | some p => simp [parseStrBody, h]
  by_cases h6 : c.toNat = 8
  · have hc : c = Char.ofNat 8 := by rw [← Char.ofNat_toNat c, h6]
    rw [show escChar c = ['\\', 'b'] from by
      unfold escChar
      simp only [if_neg h1, if_neg h2, if_neg h3, if_neg h4, if_neg h5, h6, if_true]]
    rw [hc]
    cases h : parseStrBody X with
    | none => simp [parseStrBody, h]
    | some p => simp [parseStrBody, h]
  by_cases h7 : c.toNat = 12
  · have hc : c = Char.ofNat 12 := by rw [← Char.ofNat_toNat c, h7]
    rw [show escChar c = ['\\', 'f'] from by
      unfold escChar
      simp only [if_neg h1, if_neg h2, if_neg h3, if_neg h4, if_neg h5, if_neg h6, h7, if_true]
      norm_num]
    rw [hc]
    cases h : parseStrBody X with
    | none => simp [parseStrBody, h]
    | some p => simp [parseStrBody, h]
  by_cases h8 : c.toNat < 32 ∨ 127 ≤ c.toNat
  · by_cases h9 : c.toNat < 65536
    · rw [show escChar c = u4 c.toNat from by
        unfold escChar
        simp only [if_neg h1, if_neg h2, if_neg h3, if_neg h4, if_neg h5, if_neg h6, if_neg h7,
          if_pos h8, if_pos h9]]
      rw [parseStrBody_u4 c.toNat X
        (by rcases char_toNat_valid c with h | h <;> omega) h9]
      rw [Char.ofNat_toNat]
    · rw [show escChar c
          = u4 (55296 + (c.toNat - 65536) / 1024) ++ u4 (56320 + (c.toNat - 65536) % 1024) from by
        unfold escChar
        simp only [if_neg h1, if_neg h2, if_neg h3, if_neg h4, if_neg h5, if_neg h6, if_neg h7,
          if_pos h8, if_neg h9]]
      rw [parseStrBody_surrogate (c.toNat - 65536) X
        (by rcases char_toNat_valid c with h | h <;> omega)]
      rw [show 65536 + (c.toNat - 65536) = c.toNat from by omega, Char.ofNat_toNat]
  · rw [show escChar c = [c] from by
      unfold escChar
      simp only [if_neg h1, if_neg h2, if_neg h3, if_neg h4, if_neg h5, if_neg h6, if_neg h7,
        if_neg h8]]
    show parseStrBody (c :: X) = _
    rw [parseStrBody.eq_def]
    split
    · rename_i heq
      exact absurd heq (by simp)
    · rename_i t heq
      injection heq with e1 e2
      exact absurd e1 h1
    · rename_i g1 g2 g3 g4 t heq
      injection heq with e1 e2
      exact absurd e1 h2
    · rename_i e t heq
      injection heq with e1 e2
      exact absurd e1 h2
    · rename_i c2 t heq
      injection heq with e1 e2
      subst e1
      subst e2
      rw [if_neg (by omega : ¬c.toNat < 32)]
      cases h : parseStrBody X with
      | none => rfl
      | some p => rfl

theorem parseStrBody_escChars (cs rest : List Char) :
    parseStrBody (escChars cs ++ '"' :: rest) = some (cs, rest) := by
  induction cs with
  | nil => rfl
  | cons c t ih =>
    rw [show escChars (c :: t) = escChar c ++ escChars t from rfl, List.append_assoc,
        parseStrBody_escChar, ih]
    rfl

theorem serNum_head (q : ℚ) : ∃ c cs, serNum q = c :: cs ∧ (c = '-' ∨ c.isDigit = true) := by
  have main : ∀ A B, ∃ c cs,
      ((if q.num < 0 then ['-'] else []) ++ natChars A) ++ B = c :: cs ∧
        (c = '-' ∨ c.isDigit = true) := by
    intro A B
    by_cases hneg : q.num < 0
    · exact ⟨'-', _, by rw [if_pos hneg]; rfl, Or.inl rfl⟩
    · obtain ⟨c, cs, hcs⟩ := natChars_obtain A
      refine ⟨c, cs ++ B, ?_, Or.inr (natChars_digits A c (by rw [hcs]; simp))⟩
      rw [if_neg hneg, List.nil_append, hcs]
      rfl
  cases hd : decExp q.den with
  | none =>
    have hs : serNum q = ((if q.num < 0 then ['-'] else []) ++ natChars q.num.natAbs)
        ++ '/' :: natChars q.den := by
      unfold serNum; rw [hd]
    rw [hs]; exact main _ _
  | some k =>
    cases k with
    | zero =>
      have hs : serNum q = ((if q.num < 0 then ['-'] else []) ++ natChars q.num.natAbs)
          ++ [] := by
        unfold serNum; rw [hd]; rw [List.append_nil]
      rw [hs]; exact main _ _
    | succ k =>
      have hs : serNum q = ((if q.num < 0 then ['-'] else [])
          ++ natChars (q.num.natAbs * 10 ^ (k + 1) / q.den / 10 ^ (k + 1)))
          ++ '.' :: fracChars (k + 1) (q.num.natAbs * 10 ^ (k + 1) / q.den % 10 ^ (k + 1)) := by
        unfold serNum; rw [hd]
      rw [hs]; exact main _ _

theorem digit_notWs (c : Char) (h : c.isDigit = true) : isWsChar c = false := by
  unfold isWsChar
  by_cases h1 : c = ' '
  · subst h1; exact absurd h (by decide)
  by_cases h2 : c = '\t'
  · subst h2; exact absurd h (by decide)
  by_cases h3 : c = '\n'
  · subst h3; exact absurd h (by decide)
  by_cases h4 : c = '\r'
  · subst h4; exact absurd h (by decide)
  simp [h1, h2, h3, h4]

theorem digit_ne (c : Char) (d : Char) (h : c.isDigit = true) (hd : d.isDigit = false) :
    c ≠ d := by
  intro hc
  rw [hc] at h
  rw [h] at hd
  simp at hd

theorem serV_head_ok (j : Json) :
    ∃ c cs, serV j = c :: cs ∧ isWsChar c = false ∧ c ≠ ']' ∧ c ≠ '}' := by
  cases j with
  | null => exact ⟨'n', _, rfl, rfl, by decide, by decide⟩
  | bool b =>
    cases b
    · exact ⟨'f', _, rfl, rfl, by decide, by decide⟩
    · exact ⟨'t', _, rfl, rfl, by decide, by decide⟩
  | num q =>
    obtain ⟨c, cs, hcs, hc⟩ := serNum_head q
    refine ⟨c, cs, hcs, ?_, ?_, ?_⟩
    · rcases hc with rfl | hdig
      · decide
      · exact digit_notWs c hdig
    · rcases hc with rfl | hdig
      · decide
      · exact digit_ne c ']' hdig (by decide)
    · rcases hc with rfl | hdig
      · decide
      · exact digit_ne c '}' hdig (by decide)
  | str s => exact ⟨'"', _, rfl, rfl, by decide, by decide⟩
  | arr a => exact ⟨'[', _, rfl, rfl, by decide, by decide⟩
  | obj o => exact ⟨'{', _, rfl, rfl, by decide, by decide⟩

theorem skipWs_not_ws (c : Char) (t : List Char) (h : isWsChar c = false) :
    skipWs (c :: t) = c :: t := by
  rw [skipWs]
  simp [h]

theorem parseV_ws_any (f : Nat) (Y : List Char) : parseV f (' ' :: Y) = parseV f Y := by
  cases f with
  | zero => rfl
  | succ f => rfl

theorem parseItemsNE_ws (f : Nat) (Y : List Char) :
    parseItemsNE f (' ' :: Y) = parseItemsNE f Y := by
  cases f with
  | zero => rfl
  | succ f =>
    show (match parseV f (' ' :: Y) with
      | none => none
      | some (v, r) =>
        match skipWs r with
        | ',' :: t =>
          match parseItemsNE f t with
          | some p => some (JsonList.cons v p.1, p.2)
          | none => none
        | ']' :: t => some (JsonList.cons v JsonList.nil, t)
        | _ => none) = _
    rw [parseV_ws_any]
    rfl

theorem parseMembersNE_ws (f : Nat) (Y : List Char) :
    parseMembersNE f (' ' :: Y) = parseMembersNE f Y := by
  cases f with
  | zero => rfl
  | succ f => rfl

theorem numSafe_comma (X : List Char) : numSafeHead (',' :: X) := by
  exact ⟨by decide, by decide, by decide, by decide⟩

theorem numSafe_rbrack (X : List Char) : numSafeHead (']' :: X) := by
  exact ⟨by decide, by decide, by decide, by decide⟩

theorem numSafe_rbrace (X : List Char) : numSafeHead ('}' :: X) := by
  exact ⟨by decide, by decide, by decide, by decide⟩


theorem sizeA_pos (a : JsonList) : 1 ≤ sizeA a := by
  cases a <;> simp [sizeA]

theorem sizeO_pos (o : JsonObj) : 1 ≤ sizeO o := by
  cases o <;> simp [sizeO]

theorem sizeV_pos (j : Json) : 1 ≤ sizeV j := by
  cases j <;> simp [sizeV]

mutual

theorem parseV_ser : ∀ (j : Json) (fuel : Nat) (rest : List Char),
    decimalNumsV j = true → sizeV j ≤ fuel → numSafeHead rest →
    parseV fuel (serV j ++ rest) = some (j, rest)
  | .null, fuel, rest, _, hf, _ => by
    match fuel, hf with
    | f + 1, _ =>
      show parseV (f + 1) ('n' :: 'u' :: 'l' :: 'l' :: rest) = some (.null, rest)
      simp [parseV, skipWs, isWsChar]
  | .bool true, fuel, rest, _, hf, _ => by
    match fuel, hf with
    | f + 1, _ =>
      show parseV (f + 1) ('t' :: 'r' :: 'u' :: 'e' :: rest) = some (.bool true, rest)
      simp [parseV, skipWs, isWsChar]
  | .bool false, fuel, rest, _, hf, _ => by
    match fuel, hf with
    | f + 1, _ =>
      show parseV (f + 1) ('f' :: 'a' :: 'l' :: 's' :: 'e' :: rest) = some (.bool false, rest)
      simp [parseV, skipWs, isWsChar]
  | .num q, fuel, rest, hd, hf, hr => by
    match fuel, hf with
    | f + 1, _ =>
      have hdec : q.isDecimal := of_decide_eq_true (by exact hd)
      obtain ⟨c, cs, hcs, hc⟩ := serNum_head q
      show parseV (f + 1) (serNum q ++ rest) = some (.num q, rest)
      rw [hcs]
      show parseV (f + 1) (c :: (cs ++ rest)) = some (.num q, rest)
      have hnotws : isWsChar c = false := by
        rcases hc with rfl | hdig
        · decide
        · exact digit_notWs c hdig
      rw [parseV.eq_def]
      simp only []
      rw [skipWs_not_ws c (cs ++ rest) hnotws]
      split
      · rename_i t heq
        exfalso
        injection heq with e1 e2
        rcases hc with rfl | hdig
        · exact absurd e1 (by decide)
        · rw [e1] at hdig; simp at hdig
      · rename_i t heq
        exfalso
        injection heq with e1 e2
        rcases hc with rfl | hdig
        · exact absurd e1 (by decide)
        · rw [e1] at hdig; simp at hdig
      · rename_i t heq
        exfalso
        injection heq with e1 e2
        rcases hc with rfl | hdig
        · exact absurd e1 (by decide)
        · rw [e1] at hdig; simp at hdig
      · rename_i t heq
        exfalso
        injection heq with e1 e2
        rcases hc with rfl | hdig
        · exact absurd e1 (by decide)
        · rw [e1] at hdig; simp at hdig
      · rename_i t heq
        exfalso
        injection heq with e1 e2
        rcases hc with rfl | hdig
        · exact absurd e1 (by decide)
        · rw [e1] at hdig; simp at hdig
      · rename_i t heq
        exfalso
        injection heq with e1 e2
        rcases hc with rfl | hdig
        · exact absurd e1 (by decide)
        · rw [e1] at hdig; simp at hdig
      · rename_i c2 t2 hn1 hn2 hn3 hn4 hn5 hn6 heq
        injection heq with e1 e2
        subst e1
        subst e2
        rw [if_pos (show (c.isDigit || decide (c = '-')) = true by
          rcases hc with rfl | hdig
          · simp
          · simp [hdig])]
        rw [show c :: (cs ++ rest) = (c :: cs) ++ rest from rfl, ← hcs,
          parseNum_serNum q hdec rest hr]
      · rename_i heq
        exact absurd heq (by simp)
  | .str s, fuel, rest, _, hf, _ => by
    match fuel, hf with
    | f + 1, _ =>
      show parseV (f + 1) ('"' :: ((escChars s.toList ++ ['"']) ++ rest)) = some (.str s, rest)
      rw [show parseV (f + 1) ('"' :: ((escChars s.toList ++ ['"']) ++ rest))
          = (match parseStrBody ((escChars s.toList ++ ['"']) ++ rest) with
             | some p => some (Json.str (String.mk p.1), p.2)
             | none => none) from rfl]
      rw [List.append_assoc, show (['"'] : List Char) ++ rest = '"' :: rest from rfl]
      rw [parseStrBody_escChars]
      rfl
  | .arr a, fuel, rest, hd, hf, hr => by
    match fuel, hf with
    | f + 1, hf2 =>
      show parseV (f + 1) ('[' :: ((serItems a ++ [']']) ++ rest)) = some (.arr a, rest)
      rw [show parseV (f + 1) ('[' :: ((serItems a ++ [']']) ++ rest))
          = (match parseItems f ((serItems a ++ [']']) ++ rest) with
             | some p => some (Json.arr p.1, p.2)
             | none => none) from rfl]
      rw [List.append_assoc, show ([']'] : List Char) ++ rest = ']' :: rest from rfl]
      have hfA : sizeA a + 2 ≤ f + 1 := hf2
      match a with
      | .nil =>
        match f, hfA with
        | f2 + 1, _ => rfl
      | .cons h t =>
        obtain ⟨c, cs, hcs, hnw, hne1, hne2⟩ := serV_head_ok h
        have hcs2 : ∃ cs2, serItems (JsonList.cons h t) = c :: cs2 := by
          match t with
          | .nil => exact ⟨cs, hcs⟩
          | .cons h2 t2 =>
            refine ⟨cs ++ ',' :: ' ' :: serItems (JsonList.cons h2 t2), ?_⟩
            rw [show serItems (JsonList.cons h (JsonList.cons h2 t2))
                = serV h ++ ',' :: ' ' :: serItems (JsonList.cons h2 t2) from rfl, hcs]
            rfl
        obtain ⟨cs2, hcs2⟩ := hcs2
        rw [hcs2]
        match f, hfA with
        | f2 + 1, hfA2 =>
          show (match (match skipWs (c :: (cs2 ++ ']' :: rest)) with
               | ']' :: t3 => some (JsonList.nil, t3)
               | rest2 => parseItemsNE f2 rest2) with
             | some p => some (Json.arr p.1, p.2)
             | none => none) = some (Json.arr (JsonList.cons h t), rest)
          rw [skipWs_not_ws c _ hnw]
          have hinner : (match c :: (cs2 ++ ']' :: rest) with
              | ']' :: t3 => some (JsonList.nil, t3)
              | rest2 => parseItemsNE f2 rest2) = some (JsonList.cons h t, rest) := by
            have hstep : (match c :: (cs2 ++ ']' :: rest) with
                | ']' :: t3 => some (JsonList.nil, t3)
                | rest2 => parseItemsNE f2 rest2)
                = parseItemsNE f2 (c :: (cs2 ++ ']' :: rest)) := by
              split
              · rename_i t3 heq
                injection heq with e1 e2
                exact absurd e1 hne1
              · rfl
            rw [hstep, show c :: (cs2 ++ ']' :: rest) = (c :: cs2) ++ ']' :: rest from rfl,
              ← hcs2]
            exact parseItemsNE_ser (JsonList.cons h t) f2 rest (by simp)
              (by exact hd)
              (by
                have h3 : sizeV h + sizeA t + 2 + 2 ≤ f2 + 1 + 1 := hfA2
                have h4 : sizeV h + sizeA t + 2 ≤ f2 := by omega
                exact h4)
          rw [hinner]
  | .obj o, fuel, rest, hd, hf, hr => by
    match fuel, hf with
    | f + 1, hf2 =>
      show parseV (f + 1) ('{' :: ((serMembers o ++ ['}']) ++ rest)) = some (.obj o, rest)
      rw [show parseV (f + 1) ('{' :: ((serMembers o ++ ['}']) ++ rest))
          = (match parseMembers f ((serMembers o ++ ['}']) ++ rest) with
             | some p => some (Json.obj p.1, p.2)
             | none => none) from rfl]
      rw [List.append_assoc, show (['}'] : List Char) ++ rest = '}' :: rest from rfl]
      have hfO : sizeO o + 2 ≤ f + 1 := hf2
      match o with
      | .nil =>
        match f, hfO with
        | f2 + 1, _ => rfl
      | .cons k v t =>
        have hcs2 : serMembers (JsonObj.cons k v t) = '"' :: (escChars k.toList ++
            ('"' :: (':' :: ' ' :: serV v ++ membersTail t))) := by
          match t with
          | .nil =>
            rw [show serMembers (JsonObj.cons k v JsonObj.nil)
                = serStr k ++ ':' :: ' ' :: serV v from rfl]
            rw [show membersTail JsonObj.nil = [] from rfl, List.append_nil]
            rw [show serStr k = '"' :: (escChars k.toList ++ ['"']) from rfl]
            simp [List.append_assoc]
          | .cons k2 v2 t2 =>
            rw [show serMembers (JsonObj.cons k v (JsonObj.cons k2 v2 t2))
                = serStr k ++ ':' :: ' ' :: serV v
                  ++ ',' :: ' ' :: serMembers (JsonObj.cons k2 v2 t2) from rfl]
            rw [show membersTail (JsonObj.cons k2 v2 t2)
                = ',' :: ' ' :: serMembers (JsonObj.cons k2 v2 t2) from rfl]
            rw [show serStr k = '"' :: (escChars k.toList ++ ['"']) from rfl]
            simp [List.append_assoc]
        match f, hfO with
        | f2 + 1, hfO2 =>
          show (match parseMembers (f2 + 1) (serMembers (JsonObj.cons k v t) ++ '}' :: rest) with
             | some p => some (Json.obj p.1, p.2)
             | none => none) = some (Json.obj (JsonObj.cons k v t), rest)
          rw [show parseMembers (f2 + 1) (serMembers (JsonObj.cons k v t) ++ '}' :: rest)
              = parseMembersNE f2 (serMembers (JsonObj.cons k v t) ++ '}' :: rest) from by
            rw [hcs2]
            rfl]
          rw [parseMembersNE_ser (JsonObj.cons k v t) f2 rest (by simp)
            (by exact hd)
            (by
              have h3 : sizeV v + sizeO t + 2 + 2 ≤ f2 + 1 + 1 := hfO2
              have h4 : sizeV v + sizeO t + 2 ≤ f2 := by omega
              exact h4)]

theorem parseItemsNE_ser : ∀ (a : JsonList) (fuel : Nat) (rest : List Char),
    a ≠ .nil → decimalNumsA a = true → sizeA a ≤ fuel →
    parseItemsNE fuel (serItems a ++ ']' :: rest) = some (a, rest)
  | .nil, _, _, hne, _, _ => absurd rfl hne
  | .cons h t, fuel, rest, _, hd, hf => by
    match fuel, hf with
    | f + 1, hf2 =>
      have hdp : decimalNumsV h = true ∧ decimalNumsA t = true := by
        have hx : decimalNumsA (JsonList.cons h t) = (decimalNumsV h && decimalNumsA t) := rfl
        rw [hx, Bool.and_eq_true] at hd
        exact hd
      match t with
      | .nil =>
        show parseItemsNE (f + 1) (serV h ++ ']' :: rest)
            = some (JsonList.cons h JsonList.nil, rest)
        rw [show parseItemsNE (f + 1) (serV h ++ ']' :: rest)
            = (match parseV f (serV h ++ ']' :: rest) with
               | none => none
               | some (v, r) =>
                 match skipWs r with
                 | ',' :: t2 =>
                   match parseItemsNE f t2 with
                   | some p => some (JsonList.cons v p.1, p.2)
                   | none => none
                 | ']' :: t2 => some (JsonList.cons v JsonList.nil, t2)
                 | _ => none) from rfl]
        rw [parseV_ser h f (']' :: rest) hdp.1
          (by
            have h3 : sizeV h + 1 + 2 ≤ f + 1 := hf2
            omega)
          (numSafe_rbrack rest)]
        rfl
      | .cons h2 t2 =>
        have hL : serItems (JsonList.cons h (JsonList.cons h2 t2)) ++ ']' :: rest
            = serV h ++ (',' :: ' ' :: (serItems (JsonList.cons h2 t2) ++ ']' :: rest)) := by
          rw [show serItems (JsonList.cons h (JsonList.cons h2 t2))
              = serV h ++ ',' :: ' ' :: serItems (JsonList.cons h2 t2) from rfl,
            List.append_assoc]
          rfl
        rw [hL]
        rw [show parseItemsNE (f + 1)
              (serV h ++ (',' :: ' ' :: (serItems (JsonList.cons h2 t2) ++ ']' :: rest)))
            = (match parseV f
                (serV h ++ (',' :: ' ' :: (serItems (JsonList.cons h2 t2) ++ ']' :: rest))) with
               | none => none
               | some (v, r) =>
                 match skipWs r with
                 | ',' :: t3 =>
                   match parseItemsNE f t3 with
                   | some p => some (JsonList.cons v p.1, p.2)
                   | none => none
                 | ']' :: t3 => some (JsonList.cons v JsonList.nil, t3)
                 | _ => none) from rfl]
        rw [parseV_ser h f _ hdp.1
          (by
            have h3 : sizeV h + sizeA (JsonList.cons h2 t2) + 2 ≤ f + 1 := hf2
            have h4 := sizeA_pos (JsonList.cons h2 t2)
            omega)
          (numSafe_comma _)]
        show (match parseItemsNE f (' ' :: (serItems (JsonList.cons h2 t2) ++ ']' :: rest)) with
           | some p => some (JsonList.cons h p.1, p.2)
           | none => none) = some (JsonList.cons h (JsonList.cons h2 t2), rest)
        rw [parseItemsNE_ws, parseItemsNE_ser (JsonList.cons h2 t2) f rest (by simp) hdp.2
          (by
            have h3 : sizeV h + sizeA (JsonList.cons h2 t2) + 2 ≤ f + 1 := hf2
            have h4 : 1 ≤ sizeV h := by
              match h with
              | .null => exact le_refl 1
              | .bool _ => exact le_refl 1
              | .num _ => exact le_refl 1
              | .str _ => exact le_refl 1
              | .arr a2 => show 1 ≤ sizeA a2 + 2; omega
              | .obj o2 => show 1 ≤ sizeO o2 + 2; omega
            omega)]

theorem parseMembersNE_ser : ∀ (o : JsonObj) (fuel : Nat) (rest : List Char),
    o ≠ .nil → decimalNumsO o = true → sizeO o ≤ fuel →
    parseMembersNE fuel (serMembers o ++ '}' :: rest) = some (o, rest)
  | .nil, _, _, hne, _, _ => absurd rfl hne
  | .cons k v t, fuel, rest, _, hd, hf => by
    match fuel, hf with
    | f + 1, hf2 =>
      have hdp : decimalNumsV v = true ∧ decimalNumsO t = true := by
        have hx : decimalNumsO (JsonObj.cons k v t) = (decimalNumsV v && decimalNumsO t) := rfl
        rw [hx, Bool.and_eq_true] at hd
        exact hd
      have hsz : sizeV v + sizeO t + 2 ≤ f + 1 := hf2
      match t with
      | .nil =>
        have hshape : serMembers (JsonObj.cons k v JsonObj.nil)
            = '"' :: (escChars k.toList ++ ('"' :: (':' :: ' ' :: serV v))) := by
          rw [show serMembers (JsonObj.cons k v JsonObj.nil)
              = serStr k ++ ':' :: ' ' :: serV v from rfl,
            show serStr k = '"' :: (escChars k.toList ++ ['"']) from rfl]
          simp [List.append_assoc]
        show parseMembersNE (f + 1) (serMembers (JsonObj.cons k v JsonObj.nil) ++ '}' :: rest)
            = some (JsonObj.cons k v JsonObj.nil, rest)
        rw [hshape]
        show parseMembersNE (f + 1)
            ('"' :: ((escChars k.toList ++ ('"' :: (':' :: ' ' :: serV v))) ++ '}' :: rest))
            = some (JsonObj.cons k v JsonObj.nil, rest)
        rw [show parseMembersNE (f + 1)
              ('"' :: ((escChars k.toList ++ ('"' :: (':' :: ' ' :: serV v))) ++ '}' :: rest))
            = (match parseStrBody
                ((escChars k.toList ++ ('"' :: (':' :: ' ' :: serV v))) ++ '}' :: rest) with
               | none => none
               | some (kcs, r1) =>
                 match skipWs r1 with
                 | ':' :: r2 =>
                   match parseV f r2 with
                   | none => none
                   | some (v2, r3) =>
                     match skipWs r3 with
                     | ',' :: t4 =>
                       match parseMembersNE f t4 with
                       | some p => some (JsonObj.cons (String.mk kcs) v2 p.1, p.2)
                       | none => none
                     | '}' :: t4 => some (JsonObj.cons (String.mk kcs) v2 JsonObj.nil, t4)
                     | _ => none
                 | _ => none) from rfl]
        rw [List.append_assoc,
          show ('"' :: (':' :: ' ' :: serV v)) ++ '}' :: rest
            = '"' :: ((':' :: ' ' :: serV v) ++ '}' :: rest) from rfl,
          parseStrBody_escChars]
        show (match parseV f (' ' :: (serV v ++ '}' :: rest)) with
           | none => none
           | some (v2, r3) =>
             match skipWs r3 with
             | ',' :: t4 =>
               match parseMembersNE f t4 with
               | some p => some (JsonObj.cons (String.mk k.toList) v2 p.1, p.2)
               | none => none
             | '}' :: t4 => some (JsonObj.cons (String.mk k.toList) v2 JsonObj.nil, t4)
             | _ => none) = some (JsonObj.cons k v JsonObj.nil, rest)
        rw [parseV_ws_any, parseV_ser v f ('}' :: rest) hdp.1 (by omega) (numSafe_rbrace rest)]
        rfl
      | .cons k2 v2 t2 =>
        have hszt := sizeO_pos (JsonObj.cons k2 v2 t2)
        have hshape : serMembers (JsonObj.cons k v (JsonObj.cons k2 v2 t2))
            = '"' :: (escChars k.toList ++ ('"' :: (':' :: ' ' :: (serV v
              ++ ',' :: ' ' :: serMembers (JsonObj.cons k2 v2 t2))))) := by
          rw [show serMembers (JsonObj.cons k v (JsonObj.cons k2 v2 t2))
              = serStr k ++ ':' :: ' ' :: serV v
                ++ ',' :: ' ' :: serMembers (JsonObj.cons k2 v2 t2) from rfl,
            show serStr k = '"' :: (escChars k.toList ++ ['"']) from rfl]
          simp [List.append_assoc]
        show parseMembersNE (f + 1)
            (serMembers (JsonObj.cons k v (JsonObj.cons k2 v2 t2)) ++ '}' :: rest)
            = some (JsonObj.cons k v (JsonObj.cons k2 v2 t2), rest)
        rw [hshape]
        show parseMembersNE (f + 1)
            ('"' :: ((escChars k.toList ++ ('"' :: (':' :: ' ' :: (serV v
              ++ ',' :: ' ' :: serMembers (JsonObj.cons k2 v2 t2))))) ++ '}' :: rest))
            = some (JsonObj.cons k v (JsonObj.cons k2 v2 t2), rest)
        rw [show parseMembersNE (f + 1)
              ('"' :: ((escChars k.toList ++ ('"' :: (':' :: ' ' :: (serV v
                ++ ',' :: ' ' :: serMembers (JsonObj.cons k2 v2 t2))))) ++ '}' :: rest))
            = (match parseStrBody
                ((escChars k.toList ++ ('"' :: (':' :: ' ' :: (serV v
                  ++ ',' :: ' ' :: serMembers (JsonObj.cons k2 v2 t2))))) ++ '}' :: rest) with
               | none => none
               | some (kcs, r1) =>
                 match skipWs r1 with
                 | ':' :: r2 =>
                   match parseV f r2 with
                   | none => none
                   | some (v3, r3) =>
                     match skipWs r3 with
                     | ',' :: t4 =>
                       match parseMembersNE f t4 with
                       | some p => some (JsonObj.cons (String.mk kcs) v3 p.1, p.2)
                       | none => none
                     | '}' :: t4 => some (JsonObj.cons (String.mk kcs) v3 JsonObj.nil, t4)
                     | _ => none
                 | _ => none) from rfl]
        rw [List.append_assoc,
          show ('"' :: (':' :: ' ' :: (serV v
              ++ ',' :: ' ' :: serMembers (JsonObj.cons k2 v2 t2)))) ++ '}' :: rest
            = '"' :: ((':' :: ' ' :: (serV v
              ++ ',' :: ' ' :: serMembers (JsonObj.cons k2 v2 t2))) ++ '}' :: rest) from rfl,
          parseStrBody_escChars]
        show (match parseV f (' ' :: ((serV v ++ ',' :: ' '
              :: serMembers (JsonObj.cons k2 v2 t2)) ++ '}' :: rest)) with
           | none => none
           | some (v3, r3) =>
             match skipWs r3 with
             | ',' :: t4 =>
               match parseMembersNE f t4 with
               | some p => some (JsonObj.cons (String.mk k.toList) v3 p.1, p.2)
               | none => none
             | '}' :: t4 => some (JsonObj.cons (String.mk k.toList) v3 JsonObj.nil, t4)
             | _ => none) = some (JsonObj.cons k v (JsonObj.cons k2 v2 t2), rest)
        rw [parseV_ws_any, List.append_assoc,
          show (',' :: ' ' :: serMembers (JsonObj.cons k2 v2 t2)) ++ '}' :: rest
            = ',' :: ' ' :: (serMembers (JsonObj.cons k2 v2 t2) ++ '}' :: rest) from rfl,
          parseV_ser v f _ hdp.1 (by omega) (numSafe_comma _)]
        show (match parseMembersNE f (' ' :: (serMembers (JsonObj.cons k2 v2 t2)
              ++ '}' :: rest)) with
           | some p => some (JsonObj.cons (String.mk k.toList) v p.1, p.2)
           | none => none) = some (JsonObj.cons k v (JsonObj.cons k2 v2 t2), rest)
        rw [parseMembersNE_ws,
          parseMembersNE_ser (JsonObj.cons k2 v2 t2) f rest (by simp) hdp.2 (by
            have h4 := sizeV_pos v
            omega)]
        rfl

end

mutual

theorem sizeV_le : ∀ j : Json, sizeV j ≤ 3 * (serV j).length
  | .null => by show 1 ≤ 3 * (4 : Nat); omega
  | .bool true => by show 1 ≤ 3 * (4 : Nat); omega
  | .bool false => by show 1 ≤ 3 * (5 : Nat); omega
  | .num q => by
    obtain ⟨c, cs, hcs, _⟩ := serNum_head q
    show 1 ≤ 3 * (serNum q).length
    rw [hcs]
    simp only [List.length_cons]
    omega
  | .str s => by
    show 1 ≤ 3 * ('"' :: escChars s.toList ++ ['"']).length
    simp only [List.length_append, List.length_cons]
    omega
  | .arr a => by
    have h := sizeA_le a
    show sizeA a + 2 ≤ 3 * ('[' :: serItems a ++ [']']).length
    simp only [List.length_append, List.length_cons, List.length_nil]
    omega
  | .obj o => by
    have h := sizeO_le o
    show sizeO o + 2 ≤ 3 * ('{' :: serMembers o ++ ['}']).length
    simp only [List.length_append, List.length_cons, List.length_nil]
    omega

theorem sizeA_le : ∀ a : JsonList, sizeA a ≤ 3 * (serItems a).length + 3
  | .nil => by show 1 ≤ 3 * ([] : List Char).length + 3; simp
  | .cons h .nil => by
    have hv := sizeV_le h
    show sizeV h + 1 + 2 ≤ 3 * (serV h).length + 3
    omega
  | .cons h (.cons h2 t) => by
    have hv := sizeV_le h
    have ht := sizeA_le (.cons h2 t)
    show sizeV h + sizeA (JsonList.cons h2 t) + 2
        ≤ 3 * (serV h ++ ',' :: ' ' :: serItems (JsonList.cons h2 t)).length + 3
    simp only [List.length_append, List.length_cons]
    omega

theorem sizeO_le : ∀ o : JsonObj, sizeO o ≤ 3 * (serMembers o).length + 3
  | .nil => by show 1 ≤ 3 * ([] : List Char).length + 3; simp
  | .cons k v .nil => by
    have hv := sizeV_le v
    show sizeV v + 1 + 2 ≤ 3 * (serStr k ++ ':' :: ' ' :: serV v).length + 3
    simp only [List.length_append, List.length_cons]
    omega
  | .cons k v (.cons k2 v2 t) => by
    have hv := sizeV_le v
    have ht := sizeO_le (.cons k2 v2 t)
    show sizeV v + sizeO (JsonObj.cons k2 v2 t) + 2
        ≤ 3 * (serStr k ++ ':' :: ' ' :: serV v
            ++ ',' :: ' ' :: serMembers (JsonObj.cons k2 v2 t)).length + 3
    simp only [List.length_append, List.length_cons]
    omega

end

/-- `json.loads(json.dumps(d)) = d`: the serializer/parser pair round-trips
every document whose numbers are exact decimals. -/
theorem parseJson_serialize (j : Json) (hd : decimalNumsV j = true) :
    parseJson (serialize j) = some j := by
  unfold parseJson serialize
  rw [show (String.mk (serV j)).toList = serV j from rfl]
  have h := parseV_ser j (3 * (serV j).length + 3) [] hd
    (le_trans (sizeV_le j) (by omega)) trivial
  rw [List.append_nil] at h
  rw [h]
  rfl

theorem chunksAux_flatten (B : Nat) (hB : 0 < B) :
    ∀ (f : Nat) (l : List α), l.length ≤ f → (chunksAux B f l).flatten = l := by
  intro f
  induction f with
  | zero =>
    intro l hl
    have h0 : l = [] := List.eq_nil_of_length_eq_zero (by omega)
    subst h0
    rfl
  | succ f ih =>
    intro l hl
    cases l with
    | nil => rfl
    | cons x xs =>
      rw [show chunksAux B (f + 1) (x :: xs)
          = (x :: xs).take B :: chunksAux B f ((x :: xs).drop B) from rfl]
      rw [List.flatten_cons]
      rw [ih ((x :: xs).drop B) (by
        rw [List.length_drop]
        simp only [List.length_cons] at hl ⊢
        omega)]
      exact List.take_append_drop B (x :: xs)

theorem chunksAux_length (B : Nat) (hB : 0 < B) :
    ∀ (f : Nat) (l : List α), l.length ≤ f →
      (chunksAux B f l).length = (l.length + B - 1) / B := by
  intro f
  induction f with
  | zero =>
    intro l hl
    have h0 : l = [] := List.eq_nil_of_length_eq_zero (by omega)
    subst h0
    rw [show chunksAux B 0 ([] : List α) = [] from rfl]
    simp only [List.length_nil]
    rw [Nat.div_eq_of_lt (by omega)]
  | succ f ih =>
    intro l hl
    cases l with
    | nil =>
      rw [show chunksAux B (f + 1) ([] : List α) = [] from rfl]
      simp only [List.length_nil]
      rw [Nat.div_eq_of_lt (by omega)]
    | cons x xs =>
      rw [show chunksAux B (f + 1) (x :: xs)
          = (x :: xs).take B :: chunksAux B f ((x :: xs).drop B) from rfl]
      rw [List.length_cons, ih ((x :: xs).drop B) (by
        rw [List.length_drop]
        simp only [List.length_cons] at hl ⊢
        omega)]
      rw [List.length_drop]
      simp only [List.length_cons]
      set n := xs.length + 1 with hn
      by_cases hle : n ≤ B
      · rw [Nat.sub_eq_zero_of_le hle]
        rw [Nat.div_eq_of_lt (by omega)]
        have h2 : n + B - 1 = (n - 1) + B := by omega
        rw [h2, Nat.add_div_right _ hB, Nat.div_eq_of_lt (by omega)]
      · have h1 : n - B + B - 1 = (n - B - 1) + B := by omega
        have h2 : n + B - 1 = (n - 1) + B := by omega
        have h3 : n - 1 = (n - B - 1) + B := by omega
        rw [h1, Nat.add_div_right _ hB, h2, Nat.add_div_right _ hB, h3,
          Nat.add_div_right _ hB]

theorem chunksAux_bounded (B : Nat) :
    ∀ (f : Nat) (l : List α) (c : List α), c ∈ chunksAux B f l → c.length ≤ B := by
  intro f
  induction f with
  | zero =>
    intro l c hc
    rw [show chunksAux B 0 l = [] from rfl] at hc
    exact absurd hc (List.not_mem_nil c)
  | succ f ih =>
    intro l c hc
    cases l with
    | nil => exact absurd hc (List.not_mem_nil c)
    | cons x xs =>
      rw [show chunksAux B (f + 1) (x :: xs)
          = (x :: xs).take B :: chunksAux B f ((x :: xs).drop B) from rfl] at hc
      rcases List.mem_cons.mp hc with h | h
      · rw [h, List.length_take]
        omega
      · exact ih _ c h

theorem chunks_flatten (B : Nat) (hB : 0 < B) (l : List α) : (chunks B l).flatten = l :=
  chunksAux_flatten B hB l.length l le_rfl

theorem chunks_length (B : Nat) (hB : 0 < B) (l : List α) :
    (chunks B l).length = (l.length + B - 1) / B :=
  chunksAux_length B hB l.length l le_rfl

theorem chunks_bounded (B : Nat) (l : List α) (c : List α) (hc : c ∈ chunks B l) :
    c.length ≤ B :=
  chunksAux_bounded B l.length l c hc

theorem foldl_append_eq (L : List (List α)) :
    ∀ t : List α, L.foldl (fun a c => a ++ c) t = t ++ L.flatten := by
  induction L with
  | nil => intro t; simp
  | cons c rest ih =>
    intro t
    rw [List.foldl_cons, ih, List.flatten_cons, List.append_assoc]

theorem writerAppend_eq (B : Nat) (hB : 0 < B) (t rows : List α) :
    writerAppend B t rows = t ++ rows := by
  unfold writerAppend
  rw [foldl_append_eq, chunks_flatten B hB]

theorem simLoadAux_none (L : List (List α)) :
    ∀ (j committed pending : Nat),
      (simLoadAux none j committed pending L).issued = L ∧
      (simLoadAux none j committed pending L).callerResult = true ∧
      (simLoadAux none j committed pending L).rolledBack = false := by
  induction L with
  | nil => intro j c p; exact ⟨rfl, rfl, rfl⟩
  | cons c0 rest ih =>
    intro j c p
    rw [show simLoadAux (none : Option Nat) j c p (c0 :: rest)
        = (let pending2 := p + c0.length
           let st : Nat × Nat := if j % 10 = 0 then (c + pending2, 0) else (c, pending2)
           let o := simLoadAux none (j + 1) st.1 st.2 rest
           { o with issued := c0 :: o.issued }) from by
      rw [simLoadAux]
      simp]
    simp only []
    refine ⟨?_, ?_, ?_⟩
    · show c0 :: (simLoadAux none (j + 1) _ _ rest).issued = c0 :: rest
      rw [(ih _ _ _).1]
    · exact (ih _ _ _).2.1
    · exact (ih _ _ _).2.2

theorem simLoadAux_fail (L : List (List α)) :
    ∀ (j k committed pending : Nat), k < L.length →
      (simLoadAux (some (j + k)) j committed pending L).issued = L.take (k + 1) ∧
      (simLoadAux (some (j + k)) j committed pending L).callerResult = false ∧
      (simLoadAux (some (j + k)) j committed pending L).rolledBack = true := by
  induction L with
  | nil => intro j k c p hk; simp at hk
  | cons c0 rest ih =>
    intro j k c p hk
    cases k with
    | zero =>
      rw [show simLoadAux (some (j + 0)) j c p (c0 :: rest)
          = { issued := [c0], committedRows := c, rolledBack := true, callerResult := false }
          from by
        rw [simLoadAux]
        simp]
      exact ⟨rfl, rfl, rfl⟩
    | succ k2 =>
      have hne : ¬(some (j + (k2 + 1)) = some j) := by
        intro hc
        injection hc with hc2
        omega
      rw [show simLoadAux (some (j + (k2 + 1))) j c p (c0 :: rest)
          = (let pending2 := p + c0.length
             let st : Nat × Nat := if j % 10 = 0 then (c + pending2, 0) else (c, pending2)
             let o := simLoadAux (some (j + (k2 + 1))) (j + 1) st.1 st.2 rest
             { o with issued := c0 :: o.issued }) from by
        rw [simLoadAux]
        simp [hne]]
      simp only []
      have hrw : j + (k2 + 1) = (j + 1) + k2 := by omega
      rw [hrw]
      have hih := ih (j + 1) k2
        (if j % 10 = 0 then (c + (p + c0.length), 0) else (c, p + c0.length)).1
        (if j % 10 = 0 then (c + (p + c0.length), 0) else (c, p + c0.length)).2
        (by simp only [List.length_cons] at hk; omega)
      refine ⟨?_, ?_, ?_⟩
      · show c0 :: (simLoadAux (some (j + 1 + k2)) (j + 1) _ _ rest).issued
            = c0 :: rest.take (k2 + 1)
        rw [hih.1]
      · exact hih.2.1
      · exact hih.2.2

theorem readJsonFiles_spec (files : List (String × Option String)) :
    (readJsonFiles files).1 = files.filterMap (fun p =>
        match p.2 with
        | some s => (parseJson s).map (fun j => (p.1, j))
        | none => none) ∧
    (readJsonFiles files).2 = files.filterMap (fun p =>
        match p.2 with
        | none => some (p.1, "read error")
        | some s =>
          match parseJson s with
          | some _ => none
          | none => some (p.1, "parse error")) ∧
    (readJsonFiles files).1.length + (readJsonFiles files).2.length = files.length := by
  induction files with
  | nil => exact ⟨rfl, rfl, rfl⟩
  | cons p rest ih =>
    obtain ⟨n, c⟩ := p
    cases c with
    | none =>
      refine ⟨?_, ?_, ?_⟩
      · show (readJsonFiles rest).1 = _
        rw [ih.1]
        rfl
      · show (n, "read error") :: (readJsonFiles rest).2 = _
        rw [List.filterMap_cons]
        simp only []
        rw [← ih.2.1]
      · show (readJsonFiles rest).1.length + ((n, "read error") :: (readJsonFiles rest).2).length
            = ((n, none) :: rest).length
        simp only [List.length_cons]
        rw [← ih.2.2]
        omega
    | some s =>
      cases hp : parseJson s with
      | some j =>
        have hstep : readJsonFiles ((n, some s) :: rest)
            = ((n, j) :: (readJsonFiles rest).1, (readJsonFiles rest).2) := by
          rw [readJsonFiles, hp]
        rw [hstep]
        refine ⟨?_, ?_, ?_⟩
        · rw [List.filterMap_cons]
          simp only [hp, Option.map_some]
          rw [← ih.1]
          rfl
        · rw [List.filterMap_cons]
          simp only [hp]
          rw [← ih.2.1]
        · simp only [List.length_cons]
          rw [← ih.2.2]
          omega
      | none =>
        have hstep : readJsonFiles ((n, some s) :: rest)
            = ((readJsonFiles rest).1, (n, "parse error") :: (readJsonFiles rest).2) := by
          rw [readJsonFiles, hp]
        rw [hstep]
        refine ⟨?_, ?_, ?_⟩
        · rw [List.filterMap_cons]
          simp only [hp, Option.map_none]
          rw [← ih.1]
          rfl
        · rw [List.filterMap_cons]
          simp only [hp]
          rw [← ih.2.1]
        · simp only [List.length_cons]
          rw [← ih.2.2]
          omega

theorem readJsonFiles_append (xs ys : List (String × Option String)) :
    (readJsonFiles (xs ++ ys)).1 = (readJsonFiles xs).1 ++ (readJsonFiles ys).1 ∧
    (readJsonFiles (xs ++ ys)).2 = (readJsonFiles xs).2 ++ (readJsonFiles ys).2 := by
  induction xs with
  | nil => exact ⟨rfl, rfl⟩
  | cons p rest ih =>
    obtain ⟨n, c⟩ := p
    cases c with
    | none =>
      refine ⟨?_, ?_⟩
      · show (readJsonFiles (rest ++ ys)).1 = (readJsonFiles rest).1 ++ _
        rw [ih.1]
      · show (n, "read error") :: (readJsonFiles (rest ++ ys)).2
            = ((n, "read error") :: (readJsonFiles rest).2) ++ _
        rw [ih.2]
        rfl
    | some s =>
      cases hp : parseJson s with
      | some j =>
        have hstep1 : readJsonFiles ((n, some s) :: rest)
            = ((n, j) :: (readJsonFiles rest).1, (readJsonFiles rest).2) := by
          rw [readJsonFiles, hp]
        have hstep2 : readJsonFiles ((n, some s) :: (rest ++ ys))
            = ((n, j) :: (readJsonFiles (rest ++ ys)).1, (readJsonFiles (rest ++ ys)).2) := by
          rw [readJsonFiles, hp]
        rw [show ((n, some s) :: rest) ++ ys = (n, some s) :: (rest ++ ys) from rfl,
          hstep1, hstep2]
        refine ⟨?_, ?_⟩
        · show (n, j) :: (readJsonFiles (rest ++ ys)).1
              = ((n, j) :: (readJsonFiles rest).1) ++ _
          rw [ih.1]
          rfl
        · show (readJsonFiles (rest ++ ys)).2 = (readJsonFiles rest).2 ++ _
          rw [ih.2]
      | none =>
        have hstep1 : readJsonFiles ((n, some s) :: rest)
            = ((readJsonFiles rest).1, (n, "parse error") :: (readJsonFiles rest).2) := by
          rw [readJsonFiles, hp]
        have hstep2 : readJsonFiles ((n, some s) :: (rest ++ ys))
            = ((readJsonFiles (rest ++ ys)).1,
               (n, "parse error") :: (readJsonFiles (rest ++ ys)).2) := by
          rw [readJsonFiles, hp]
        rw [show ((n, some s) :: rest) ++ ys = (n, some s) :: (rest ++ ys) from rfl,
          hstep1, hstep2]
        refine ⟨?_, ?_⟩
        · show (readJsonFiles (rest ++ ys)).1 = (readJsonFiles rest).1 ++ _
          rw [ih.1]
        · show (n, "parse error") :: (readJsonFiles (rest ++ ys)).2
              = ((n, "parse error") :: (readJsonFiles rest).2) ++ _
          rw [ih.2]
          rfl

theorem selectDelim_cases (s : String) :
    (pyIn "$JSON$" s = true → selectDelim s = "$WEATHER_JSON$") ∧
    (pyIn "$JSON$" s = false → selectDelim s = "$JSON$") := by
  unfold selectDelim
  constructor
  · intro h
    rw [if_pos h]
  · intro h
    rw [if_neg (by rw [h]; exact Bool.false_ne_true)]

theorem selectDelim_avoids (s : String) (h : pyIn "$WEATHER_JSON$" s = false) :
    pyIn (selectDelim s) s = false := by
  unfold selectDelim
  by_cases hj : pyIn "$JSON$" s = true
  · rw [if_pos hj]
    exact h
  · have hjf : pyIn "$JSON$" s = false := by
      cases hx : pyIn "$JSON$" s
      · rfl
      · exact absurd hx hj
    rw [if_neg hj]
    exact hjf

theorem subList_of_isPrefixOf (needle X : List Char) (h : needle.isPrefixOf X = true) :
    subList needle X = true := by
  cases X with
  | nil =>
    show needle.isPrefixOf [] = true
    exact h
  | cons c t =>
    show (needle.isPrefixOf (c :: t) || subList needle t) = true
    rw [h]
    rfl

theorem splitFirst_boundary (needle tail : List Char) (hne : needle ≠ []) :
    ∀ w : List Char, subList needle (w ++ needle.dropLast) = false →
      splitFirst needle (w ++ (needle ++ tail)) = some (w, tail) := by
  intro w
  induction w with
  | nil =>
    intro _
    rw [List.nil_append]
    obtain ⟨n0, nr, hneq⟩ := List.exists_cons_of_ne_nil hne
    have hpre : needle.isPrefixOf (needle ++ tail) = true := by
      rw [List.isPrefixOf_iff_prefix]
      exact List.prefix_append _ _
    rw [show needle ++ tail = n0 :: (nr ++ tail) from by rw [hneq]; rfl]
    rw [splitFirst]
    rw [if_pos (show needle.isPrefixOf (n0 :: (nr ++ tail)) = true from by
      rw [show n0 :: (nr ++ tail) = needle ++ tail from by rw [hneq]; rfl]
      exact hpre)]
    rw [show n0 :: (nr ++ tail) = needle ++ tail from by rw [hneq]; rfl]
    rw [List.drop_left]
  | cons c w' ih =>
    intro hno
    have hno2 : needle.isPrefixOf (c :: (w' ++ needle.dropLast)) = false ∧
        subList needle (w' ++ needle.dropLast) = false := by
      have hx : subList needle (c :: (w' ++ needle.dropLast))
          = (needle.isPrefixOf (c :: (w' ++ needle.dropLast))
             || subList needle (w' ++ needle.dropLast)) := rfl
      rw [show (c :: w') ++ needle.dropLast = c :: (w' ++ needle.dropLast) from rfl] at hno
      rw [hx] at hno
      exact Bool.or_eq_false_iff.mp hno
    have hofalse : needle.isPrefixOf (c :: (w' ++ (needle ++ tail))) = false := by
      cases hx : needle.isPrefixOf (c :: (w' ++ (needle ++ tail))) with
      | false => rfl
      | true =>
        exfalso
        rw [List.isPrefixOf_iff_prefix] at hx
        have htake := List.prefix_iff_eq_take.mp hx
        have hlast : c :: (w' ++ (needle ++ tail))
            = ((c :: w') ++ needle.dropLast) ++ ([needle.getLast hne] ++ tail) := by
          rw [show ((c :: w') ++ needle.dropLast) ++ ([needle.getLast hne] ++ tail)
              = c :: ((w' ++ needle.dropLast) ++ ([needle.getLast hne] ++ tail)) from rfl]
          congr 1
          rw [List.append_assoc, ← List.append_assoc needle.dropLast,
            List.dropLast_concat_getLast hne]
        have hlen : needle.length ≤ ((c :: w') ++ needle.dropLast).length := by
          rw [List.length_append, List.length_dropLast, List.length_cons]
          have hpos : 0 < needle.length := List.length_pos.mpr hne
          omega
        have hpre2 : needle.isPrefixOf ((c :: w') ++ needle.dropLast) = true := by
          rw [List.isPrefixOf_iff_prefix, List.prefix_iff_eq_take]
          conv_lhs => rw [htake]
          rw [hlast, List.take_append_of_le_length hlen]
        have hcontra := hno2.1
        rw [show c :: (w' ++ needle.dropLast) = (c :: w') ++ needle.dropLast from rfl] at hcontra
        rw [hpre2] at hcontra
        exact Bool.noConfusion hcontra
    rw [show (c :: w') ++ (needle ++ tail) = c :: (w' ++ (needle ++ tail)) from rfl]
    rw [splitFirst]
    rw [if_neg (by rw [hofalse]; exact Bool.false_ne_true)]
    rw [ih hno2.2]

theorem bind_pyGet_obj {α : Type} (o : JsonObj) (k : String) (dflt : Json)
    (f : Json → Except String α) :
    Json.pyGet (.obj o) k dflt >>= f = f (o.getD k dflt) := rfl

theorem truthy_arr_nil : (Json.arr .nil).truthy = false := rfl

theorem truthy_arr_cons (h : Json) (t : JsonList) :
    (Json.arr (.cons h t)).truthy = true := rfl

theorem bind_pure_except {α β : Type} (a : α) (f : α → Except String β) :
    (pure a : Except String α) >>= f = f a := rfl

theorem bind_sub0_cons {α : Type} (h : Json) (t : JsonList)
    (f : Json → Except String α) :
    (Json.arr (.cons h t)).sub0 >>= f = f h := rfl

theorem bind_asStr {α : Type} (s : String) (f : String → Except String α) :
    Json.asStr (.str s) >>= f = f s := rfl

theorem getD_nil (k : String) (dflt : Json) :
    JsonObj.getD .nil k dflt = dflt := rfl

theorem sectionObj_elim (d : JsonObj) (k : String) (h : sectionObj d k = true) :
    ∃ o : JsonObj, JsonObj.getD d k (.obj .nil) = .obj o ∧
      ∀ key dflt, o.getD key dflt = sectionGetD d k key dflt := by
  unfold sectionObj at h
  cases hl : d.lookup k with
  | none =>
    refine ⟨.nil, ?_, ?_⟩
    · unfold JsonObj.getD
      rw [hl]
      rfl
    · intro key dflt
      unfold sectionGetD
      rw [hl]
      rfl
  | some v =>
    rw [hl] at h
    cases v with
    | obj o =>
      refine ⟨o, ?_, ?_⟩
      · unfold JsonObj.getD
        rw [hl]
        rfl
      · intro key dflt
        unfold sectionGetD
        rw [hl]
    | null => exact absurd h (by simp)
    | bool b => exact absurd h (by simp)
    | num q => exact absurd h (by simp)
    | str s => exact absurd h (by simp)
    | arr a => exact absurd h (by simp)

/-- Characterization of the plain flatten generator on a document whose
nested sections (when present) are objects and whose `weather` field is
absent or the empty list: every value is extracted by defaulting `get`, no
exception is raised, and in particular all four `WEATHER_*` values take
their defaults. -/
theorem normalizedRowValues_eq (d : JsonObj)
    (hcoord : sectionObj d "coord" = true)
    (hmain : sectionObj d "main" = true)
    (hwind : sectionObj d "wind" = true)
    (hclouds : sectionObj d "clouds" = true)
    (hsys : sectionObj d "sys" = true)
    (hw : d.lookup "weather" = none ∨ d.lookup "weather" = some (.arr .nil)) :
    normalizedRowValues (.obj d) = .ok {
      CITY_NAME := d.getD "name" (.str "")
      CITY_ID := d.getD "id" (.num 0)
      COUNTRY_CODE := sectionGetD d "sys" "country" (.str "")
      LONGITUDE := sectionGetD d "coord" "lon" (.num 0)
      LATITUDE := sectionGetD d "coord" "lat" (.num 0)
      WEATHER_ID := .num 0
      WEATHER_MAIN := .str ""
      WEATHER_DESCRIPTION := .str ""
      WEATHER_ICON := .str ""
      BASE := d.getD "base" (.str "")
      TEMPERATURE := sectionGetD d "main" "temp" (.num 0)
      FEELS_LIKE := sectionGetD d "main" "feels_like" (.num 0)
      TEMP_MIN := sectionGetD d "main" "temp_min" (.num 0)
      TEMP_MAX := sectionGetD d "main" "temp_max" (.num 0)
      PRESSURE := sectionGetD d "main" "pressure" (.num 0)
      HUMIDITY := sectionGetD d "main" "humidity" (.num 0)
      SEA_LEVEL := sectionGetD d "main" "sea_level" (.num 0)
      GROUND_LEVEL := sectionGetD d "main" "grnd_level" (.num 0)
      VISIBILITY := d.getD "visibility" (.num 0)
      WIND_SPEED := sectionGetD d "wind" "speed" (.num 0)
      WIND_DEGREE := sectionGetD d "wind" "deg" (.num 0)
      CLOUD_COVERAGE := sectionGetD d "clouds" "all" (.num 0)
      DATA_TIMESTAMP := d.getD "dt" (.num 0)
      SUNRISE_TIMESTAMP := sectionGetD d "sys" "sunrise" (.num 0)
      SUNSET_TIMESTAMP := sectionGetD d "sys" "sunset" (.num 0)
      TIMEZONE_OFFSET := d.getD "timezone" (.num 0)
      SYS_TYPE := sectionGetD d "sys" "type" (.num 0)
      SYS_ID := sectionGetD d "sys" "id" (.num 0)
      RESPONSE_CODE := d.getD "cod" (.num 0)
    } := by
  obtain ⟨oc, hoc, hocg⟩ := sectionObj_elim d "coord" hcoord
  obtain ⟨om, hom, homg⟩ := sectionObj_elim d "main" hmain
  obtain ⟨ow, how, howg⟩ := sectionObj_elim d "wind" hwind
  obtain ⟨ocl, hocl, hoclg⟩ := sectionObj_elim d "clouds" hclouds
  obtain ⟨os, hos, hosg⟩ := sectionObj_elim d "sys" hsys
  rcases hw with hw | hw
  · have hga : JsonObj.getD d "weather" (.arr (.cons (.obj .nil) .nil))
        = .arr (.cons (.obj .nil) .nil) := by
      unfold JsonObj.getD
      rw [hw]
      rfl
    unfold normalizedRowValues
    simp only [bind_pyGet_obj, hga, hoc, hom, how, hocl, hos, truthy_arr_cons,
      eq_self_iff_true, if_true, bind_sub0_cons, getD_nil, bind_asStr,
      hocg, homg, howg, hoclg, hosg]
    rfl
  · have hga : JsonObj.getD d "weather" (.arr (.cons (.obj .nil) .nil))
        = .arr .nil := by
      unfold JsonObj.getD
      rw [hw]
      rfl
    unfold normalizedRowValues
    simp only [bind_pyGet_obj, hga, hoc, hom, how, hocl, hos, truthy_arr_nil,
      Bool.false_eq_true, if_false, bind_pure_except, getD_nil, bind_asStr,
      hocg, homg, howg, hoclg, hosg]
    rfl

theorem numColQ_present (cols : List (String × Json)) (k : String) (v : Json)
    (hv : colGet cols k = some v) :
    numColQ cols k = .ok ((toNumericCoerce v).getD 0) := by
  unfold numColQ
  rw [hv]

/-- C1: on the empty document the plain SQL-text generator produces the
all-defaults row, but the pandas engine's `.fillna` call on the numpy scalar
returned by `pd.to_numeric(df.get('id', 0))` raises `AttributeError` — the
claim's "no exception is raised" fails on the pandas path. -/
theorem C1_scalar_default_bug :
    normalizedRowValues (.obj .nil) = .ok defaultNormalizedVals ∧
    normalizeForNormalizedTable (.obj .nil)
      = .error "AttributeError: numpy scalar has no attribute fillna" :=
  ⟨rfl, rfl⟩

/-- C2: the chunked writer issues exactly `ceil(N/B)` insert calls, each of at
most `B` rows, and the issued chunks concatenate back to the input sequence in
order. -/
theorem C2_chunked_writer {α : Type} (B : Nat) (hB : 0 < B) (rows : List α) :
    (simLoad B rows none).issued = chunks B rows ∧
    (chunks B rows).length = (rows.length + B - 1) / B ∧
    (∀ c ∈ chunks B rows, c.length ≤ B) ∧
    (chunks B rows).flatten = rows := by
  refine ⟨?_, chunks_length B hB rows, fun c hc => chunks_bounded B rows c hc,
    chunks_flatten B hB rows⟩
  cases rows with
  | nil => rfl
  | cons x xs =>
    show (simLoadAux none 0 0 0 (chunks B (x :: xs))).issued = chunks B (x :: xs)
    exact (simLoadAux_none (chunks B (x :: xs)) 0 0 0).1

theorem C2_chunked_writer_witness :
    0 < 5 ∧
    ((simLoad 5 (List.range 12) none).issued = chunks 5 (List.range 12) ∧
      (chunks 5 (List.range 12)).length = (12 + 5 - 1) / 5 ∧
      (∀ c ∈ chunks 5 (List.range 12), c.length ≤ 5) ∧
      (chunks 5 (List.range 12)).flatten = List.range 12) ∧
    (chunks 5 (List.range 12)).map List.length = [5, 5, 2] :=
  ⟨by decide, by
      have h := C2_chunked_writer 5 (by decide) (List.range 12)
      simpa using h,
    by decide⟩

/-- C3: whenever the pandas raw-table step produces a row, its `WEATHER_JSON`
text deserializes back to the original input document. -/
theorem C3_weather_json_roundtrip (data : Json) (row : RawTableRow)
    (hdec : decimalNumsV data = true)
    (h : normalizeForRawTable data = .ok row) :
    parseJson row.WEATHER_JSON = some data := by
  cases data with
  | obj o =>
    cases hi : intCol (jsonNormalizePairs o) "id" with
    | error e =>
      simp only [normalizeForRawTable] at h
      rw [hi] at h
      exact Except.noConfusion h
    | ok i =>
      simp only [normalizeForRawTable] at h
      rw [hi] at h
      have hr := Except.ok.inj h
      rw [← hr]
      exact parseJson_serialize _ hdec
  | null => exact Except.noConfusion h
  | bool b => exact Except.noConfusion h
  | num q => exact Except.noConfusion h
  | str s => exact Except.noConfusion h
  | arr a => exact Except.noConfusion h

theorem C3_weather_json_roundtrip_witness :
    decimalNumsV (Json.obj (.cons "id" (.num 5) .nil)) = true ∧
    normalizeForRawTable (Json.obj (.cons "id" (.num 5) .nil)) = .ok {
      CITY_NAME := .str "Unknown"
      CITY_ID := 5
      COUNTRY_CODE := .str ""
      WEATHER_JSON := serialize (Json.obj (.cons "id" (.num 5) .nil)) } ∧
    parseJson (RawTableRow.WEATHER_JSON {
      CITY_NAME := .str "Unknown"
      CITY_ID := 5
      COUNTRY_CODE := .str ""
      WEATHER_JSON := serialize (Json.obj (.cons "id" (.num 5) .nil)) })
      = some (Json.obj (.cons "id" (.num 5) .nil)) :=
  ⟨by rfl, by rfl,
    C3_weather_json_roundtrip (Json.obj (.cons "id" (.num 5) .nil)) _ (by rfl) (by rfl)⟩

/-- C4: a document of WeatherRecord shape (nested sections absent or objects)
whose `weather` field is absent or the empty list flattens to a row whose four
`WEATHER_*` values are exactly their defaults, with no exception — the
present-but-not-a-list case of the claim is dropped (see the
counterexample). -/
theorem C4_weather_defaults (d : JsonObj)
    (hcoord : sectionObj d "coord" = true)
    (hmain : sectionObj d "main" = true)
    (hwind : sectionObj d "wind" = true)
    (hclouds : sectionObj d "clouds" = true)
    (hsys : sectionObj d "sys" = true)
    (hw : d.lookup "weather" = none ∨ d.lookup "weather" = some (.arr .nil)) :
    normalizedRowValues (.obj d) = .ok {
      CITY_NAME := d.getD "name" (.str "")
      CITY_ID := d.getD "id" (.num 0)
      COUNTRY_CODE := sectionGetD d "sys" "country" (.str "")
      LONGITUDE := sectionGetD d "coord" "lon" (.num 0)
      LATITUDE := sectionGetD d "coord" "lat" (.num 0)
      WEATHER_ID := .num 0
      WEATHER_MAIN := .str ""
      WEATHER_DESCRIPTION := .str ""
      WEATHER_ICON := .str ""
      BASE := d.getD "base" (.str "")
      TEMPERATURE := sectionGetD d "main" "temp" (.num 0)
      FEELS_LIKE := sectionGetD d "main" "feels_like" (.num 0)
      TEMP_MIN := sectionGetD d "main" "temp_min" (.num 0)
      TEMP_MAX := sectionGetD d "main" "temp_max" (.num 0)
      PRESSURE := sectionGetD d "main" "pressure" (.num 0)
      HUMIDITY := sectionGetD d "main" "humidity" (.num 0)
      SEA_LEVEL := sectionGetD d "main" "sea_level" (.num 0)
      GROUND_LEVEL := sectionGetD d "main" "grnd_level" (.num 0)
      VISIBILITY := d.getD "visibility" (.num 0)
      WIND_SPEED := sectionGetD d "wind" "speed" (.num 0)
      WIND_DEGREE := sectionGetD d "wind" "deg" (.num 0)
      CLOUD_COVERAGE := sectionGetD d "clouds" "all" (.num 0)
      DATA_TIMESTAMP := d.getD "dt" (.num 0)
      SUNRISE_TIMESTAMP := sectionGetD d "sys" "sunrise" (.num 0)
      SUNSET_TIMESTAMP := sectionGetD d "sys" "sunset" (.num 0)
      TIMEZONE_OFFSET := d.getD "timezone" (.num 0)
      SYS_TYPE := sectionGetD d "sys" "type" (.num 0)
      SYS_ID := sectionGetD d "sys" "id" (.num 0)
      RESPONSE_CODE := d.getD "cod" (.num 0)
    } :=
  normalizedRowValues_eq d hcoord hmain hwind hclouds hsys hw

theorem C4_weather_defaults_witness :
    sectionObj .nil "coord" = true ∧ sectionObj .nil "main" = true ∧
    sectionObj .nil "wind" = true ∧ sectionObj .nil "clouds" = true ∧
    sectionObj .nil "sys" = true ∧
    (JsonObj.lookup .nil "weather" = none ∨
      JsonObj.lookup .nil "weather" = some (.arr .nil)) ∧
    normalizedRowValues (.obj .nil) = .ok defaultNormalizedVals :=
  ⟨rfl, rfl, rfl, rfl, rfl, Or.inl rfl,
    C4_weather_defaults .nil rfl rfl rfl rfl rfl (Or.inl rfl)⟩

theorem C4_weather_counterexample :
    normalizedRowValues (.obj (.cons "weather" (.num 800) .nil))
      = .error "TypeError: object is not subscriptable" := rfl

/-- C5: in the pandas engine a present numeric column whose cell fails
`pd.to_numeric(..., errors='coerce')` resolves to the default `0` (float and
int64 paths) instead of propagating or raising; the plain SQL-text generator
does not do this (see the counterexample). -/
theorem C5_coerce_default (cols : List (String × Json)) (k : String) (v : Json)
    (hv : colGet cols k = some v) (hnc : toNumericCoerce v = none) :
    numColQ cols k = .ok 0 ∧ intCol cols k = .ok 0 := by
  have h1 := numColQ_present cols k v hv
  constructor
  · rw [h1, hnc]
    rfl
  · show (numColQ cols k).map ratTrunc = .ok 0
    rw [h1, hnc]
    rfl

theorem C5_coerce_default_witness :
    colGet [("cod", Json.str "abc")] "cod" = some (Json.str "abc") ∧
    toNumericCoerce (Json.str "abc") = none ∧
    (numColQ [("cod", Json.str "abc")] "cod" = .ok 0 ∧
      intCol [("cod", Json.str "abc")] "cod" = .ok 0) :=
  ⟨rfl, rfl, C5_coerce_default [("cod", Json.str "abc")] "cod" (Json.str "abc") rfl rfl⟩

theorem C5_coerce_counterexample :
    normalizedRowValues (.obj (.cons "cod" (.str "abc") .nil))
      = .ok { defaultNormalizedVals with RESPONSE_CODE := .str "abc" } ∧
    Json.str "abc" ≠ Json.num 0 :=
  ⟨rfl, by decide⟩

/-- C6: the pandas loader's dollar-quoted embedding is read back verbatim by
the dialect (quotes, backslashes and newlines in the payload need no escape
processing) and the payload deserializes to the original document; the
boundary hypothesis says the chosen delimiter does not occur in the payload
extended by a proper prefix of itself.  The plain generator's naive
quote-replacement path does not round-trip (see the counterexample). -/
theorem C6_dollar_quote_roundtrip (d : Json) (tail : List Char)
    (hdec : decimalNumsV d = true)
    (hb : subList (selectDelim (serialize d)).toList
        ((serialize d).toList ++ (selectDelim (serialize d)).toList.dropLast) = false) :
    dollarLiteralValue (selectDelim (serialize d)) (embedParseJsonArg (serialize d) ++ tail)
      = some ((serialize d).toList, tail) ∧
    parseJson (serialize d) = some d := by
  refine ⟨?_, parseJson_serialize d hdec⟩
  have hne : (selectDelim (serialize d)).toList ≠ [] := by
    unfold selectDelim
    cases hj : pyIn "$JSON$" (serialize d) <;> decide
  have hreg : embedParseJsonArg (serialize d) ++ tail
      = (selectDelim (serialize d)).toList ++ ((serialize d).toList ++
          ((selectDelim (serialize d)).toList ++ tail)) := by
    unfold embedParseJsonArg
    simp [List.append_assoc]
  rw [hreg]
  unfold dollarLiteralValue
  rw [if_pos (show (selectDelim (serialize d)).toList.isPrefixOf
      ((selectDelim (serialize d)).toList ++ ((serialize d).toList ++
        ((selectDelim (serialize d)).toList ++ tail))) = true from by
    rw [List.isPrefixOf_iff_prefix]
    exact List.prefix_append _ _)]
  rw [List.drop_left]
  exact splitFirst_boundary _ tail hne _ hb

theorem C6_dollar_quote_roundtrip_witness :
    decimalNumsV (Json.obj (.cons "name" (.str "it's\nok") .nil)) = true ∧
    subList (selectDelim (serialize (Json.obj (.cons "name" (.str "it's\nok") .nil)))).toList
      ((serialize (Json.obj (.cons "name" (.str "it's\nok") .nil))).toList ++
        (selectDelim (serialize (Json.obj (.cons "name" (.str "it's\nok") .nil)))).toList.dropLast)
      = false ∧
    (dollarLiteralValue (selectDelim (serialize (Json.obj (.cons "name" (.str "it's\nok") .nil))))
        (embedParseJsonArg (serialize (Json.obj (.cons "name" (.str "it's\nok") .nil))) ++ [])
        = some ((serialize (Json.obj (.cons "name" (.str "it's\nok") .nil))).toList, []) ∧
      parseJson (serialize (Json.obj (.cons "name" (.str "it's\nok") .nil)))
        = some (Json.obj (.cons "name" (.str "it's\nok") .nil))) :=
  ⟨by rfl, by rfl,
    C6_dollar_quote_roundtrip (Json.obj (.cons "name" (.str "it's\nok") .nil)) []
      (by rfl) (by rfl)⟩

theorem C6_naive_escape_counterexample :
    (sqDecode (variantEscapedJson (.obj (.cons "name" (.str "a\\b") .nil)))).map
        (fun cs => parseJson (String.mk cs))
      = some (some (.obj (.cons "name" (.str (String.mk ['a', Char.ofNat 8])) .nil))) ∧
    Json.obj (.cons "name" (.str (String.mk ['a', Char.ofNat 8])) .nil)
      ≠ Json.obj (.cons "name" (.str "a\\b") .nil) :=
  ⟨rfl, by decide⟩

/-- C7: when executing chunk `k` raises, the writer issues no chunk after `k`,
rolls back, and returns `False`; the amendment is that `False` is all the
caller gets — the offending chunk index and processed-row count are not
reported (see the counterexample). -/
theorem C7_failure_aborts {α : Type} (B k : Nat) (rows : List α)
    (hk : k < (chunks B rows).length) :
    (simLoad B rows (some k)).issued = (chunks B rows).take (k + 1) ∧
    (simLoad B rows (some k)).rolledBack = true ∧
    (simLoad B rows (some k)).callerResult = false := by
  have hne : rows ≠ [] := by
    intro hr
    subst hr
    rw [show chunks B ([] : List α) = [] from rfl] at hk
    simp at hk
  have hsl : simLoad B rows (some k) = simLoadAux (some k) 0 0 0 (chunks B rows) := by
    unfold simLoad
    rw [if_neg (by
      cases rows with
      | nil => exact absurd rfl hne
      | cons x xs => simp)]
  have h := simLoadAux_fail (chunks B rows) 0 k 0 0 hk
  rw [Nat.zero_add] at h
  rw [hsl]
  exact ⟨h.1, h.2.2, h.2.1⟩

theorem C7_failure_aborts_witness :
    1 < (chunks 1 [10, 20, 30]).length ∧
    ((simLoad 1 [10, 20, 30] (some 1)).issued = (chunks 1 [10, 20, 30]).take 2 ∧
      (simLoad 1 [10, 20, 30] (some 1)).rolledBack = true ∧
      (simLoad 1 [10, 20, 30] (some 1)).callerResult = false) :=
  ⟨by decide, C7_failure_aborts 1 1 [10, 20, 30] (by decide)⟩

theorem C7_no_context_counterexample :
    (simLoad 1 [0, 1] (some 0)).callerResult = (simLoad 1 [0, 1] (some 1)).callerResult ∧
    simLoad 1 [0, 1] (some 0) ≠ simLoad 1 [0, 1] (some 1) := by decide

/-- C8: the source enumeration yields exactly the parseable documents, records
a reason ("read error" / "parse error") for every skipped item, accounts for
every input item, and a prefix's results never depend on later items —
enumeration continues past individual failures. -/
theorem C8_enumeration (files more : List (String × Option String)) :
    (readJsonFiles files).1 = files.filterMap (fun p =>
        match p.2 with
        | some s => (parseJson s).map (fun j => (p.1, j))
        | none => none) ∧
    (readJsonFiles files).2 = files.filterMap (fun p =>
        match p.2 with
        | none => some (p.1, "read error")
        | some s =>
          match parseJson s with
          | some _ => none
          | none => some (p.1, "parse error")) ∧
    (readJsonFiles files).1.length + (readJsonFiles files).2.length = files.length ∧
    (readJsonFiles (files ++ more)).1 = (readJsonFiles files).1 ++ (readJsonFiles more).1 ∧
    (readJsonFiles (files ++ more)).2 = (readJsonFiles files).2 ++ (readJsonFiles more).2 := by
  obtain ⟨h1, h2, h3⟩ := readJsonFiles_spec files
  obtain ⟨h4, h5⟩ := readJsonFiles_append files more
  exact ⟨h1, h2, h3, h4, h5⟩

/-- C9: the writer only ever appends: running it twice over the same rows
leaves the table with both copies in order, `2N` added rows in all. -/
theorem C9_rerun_appends {α : Type} (B : Nat) (hB : 0 < B) (table rows : List α) :
    writerAppend B (writerAppend B table rows) rows = table ++ rows ++ rows ∧
    (writerAppend B (writerAppend B [] rows) rows).length = 2 * rows.length := by
  constructor
  · rw [writerAppend_eq B hB, writerAppend_eq B hB]
  · rw [writerAppend_eq B hB, writerAppend_eq B hB]
    simp
    omega

theorem C9_rerun_appends_witness :
    0 < 2 ∧
    (writerAppend 2 (writerAppend 2 [9] [0, 1, 2]) [0, 1, 2] = [9] ++ [0, 1, 2] ++ [0, 1, 2] ∧
      (writerAppend 2 (writerAppend 2 [] [0, 1, 2]) [0, 1, 2]).length = 2 * [0, 1, 2].length) :=
  ⟨by decide, C9_rerun_appends 2 (by decide) [9] [0, 1, 2]⟩

/-- C10: the raw-table loader picks `$WEATHER_JSON$` as the dollar-quote
delimiter exactly when the serialized text contains `$JSON$`, and `$JSON$`
otherwise; when the text does not contain `$WEATHER_JSON$` the selected
delimiter never occurs inside the embedded value. -/
theorem C10_delimiter_choice (wj : String) :
    (pyIn "$JSON$" wj = true → selectDelim wj = "$WEATHER_JSON$") ∧
    (pyIn "$JSON$" wj = false → selectDelim wj = "$JSON$") ∧
    (pyIn "$WEATHER_JSON$" wj = false → pyIn (selectDelim wj) wj = false) :=
  ⟨(selectDelim_cases wj).1, (selectDelim_cases wj).2, fun h => selectDelim_avoids wj h⟩
